import Mathlib

/-!
Verification of the fisquality simulation engine.

This file is a shallow embedding, in Lean 4, of the core of the fisquality
repository: the French holiday calendar (src/unnamed/part_009, `holidays.ts`),
the pattern-expansion engine (src/unnamed/part_006, `occurrences.ts`) and the
simulation engine (src/server/engine.ts).  TypeScript numbers that carry money
are modelled as exact rationals (the spec demands decimal money; every check in
the source uses a 0.01 tolerance), JS `Date` values and ISO `YYYY-MM-DD`
strings are modelled as calendar-day triples, and the nullable fields of the
drizzle row types are modelled as `Option`.

One deliberate deviation from the literal source text is documented at
`monthStep` below: engine.ts reads `o.postings` in the progress-tax
computation, a field that does not exist on `Occurrence` (the field is named
`accountPostings`); the embedding uses the intended field.
-/

namespace Fisquality

/-- Calendar date in the proleptic Gregorian calendar.  Models both the JS
`Date` values (the engine is date-based, no time-of-day is ever used) and the
ISO `YYYY-MM-DD` strings the source keys sets and overrides by; for the
four-digit years the engine works with, ISO-string equality and
string comparison agree with equality and lexicographic order of these triples. -/
structure Date where
  year : Nat
  month : Nat
  day : Nat
deriving DecidableEq, Repr

/-- Linear day count of a civil date (days since 0000-03-01), mirroring the
day arithmetic JS `Date` performs via its time value.  Standard civil-calendar
conversion; valid for the dates the engine manipulates (year ≥ 1). -/
def daysFromCivil (dt : Date) : Nat :=
  let y := if dt.month ≤ 2 then dt.year - 1 else dt.year
  let era := y / 400
  let yoe := y % 400
  let mp := (dt.month + 9) % 12
  let doy := (153 * mp + 2) / 5 + dt.day - 1
  let doe := yoe * 365 + yoe / 4 - yoe / 100 + doy
  era * 146097 + doe

/-- Inverse of `daysFromCivil`. -/
def civilFromDays (z : Nat) : Date :=
  let era := z / 146097
  let doe := z % 146097
  let yoe := (doe - doe / 1460 + doe / 36524 - doe / 146096) / 365
  let y := yoe + era * 400
  let doy := doe - (365 * yoe + yoe / 4 - yoe / 100)
  let mp := (5 * doy + 2) / 153
  let d := doy - (153 * mp + 2) / 5 + 1
  let m := if mp < 10 then mp + 3 else mp - 9
  { year := if m ≤ 2 then y + 1 else y, month := m, day := d }

/-- Model of `addDays` (holidays.ts): add a (possibly negative) number of days
to a date. -/
def addDays (dt : Date) (days : Int) : Date :=
  civilFromDays ((daysFromCivil dt : Int) + days).toNat

/-- Model of JS `Date.getDay`: weekday with 0 = Sunday … 6 = Saturday.
0000-03-01 is a Wednesday, and 146097 (days per 400-year era) is divisible
by 7. -/
def jsGetDay (dt : Date) : Nat :=
  (daysFromCivil dt + 3) % 7

/-- Chronological comparison of dates; JS compares `Date` objects by time
value, and compares ISO date strings lexicographically, which agree. -/
def dateLE (a b : Date) : Bool :=
  daysFromCivil a ≤ daysFromCivil b

/-- Two-digit zero padding, as in `String(n).padStart(2, "0")`. -/
def pad2 (n : Nat) : String :=
  if n < 10 then "0" ++ Nat.repr n else Nat.repr n

/-- Model of `formatDateISO` (occurrences.ts / holidays.ts). -/
def formatDateISO (dt : Date) : String :=
  Nat.repr dt.year ++ "-" ++ pad2 dt.month ++ "-" ++ pad2 dt.day

-- Sanity anchors for the date kernel: 2024-01-01 was a Monday, 2024-02-29
-- exists, and the conversions invert each other around a leap day.
example : jsGetDay ⟨2024, 1, 1⟩ = 1 := by decide
example : jsGetDay ⟨2024, 5, 1⟩ = 3 := by decide
example : civilFromDays (daysFromCivil ⟨2024, 2, 29⟩) = ⟨2024, 2, 29⟩ := by decide
example : addDays ⟨2024, 2, 28⟩ 2 = ⟨2024, 3, 1⟩ := by decide
example : addDays ⟨2024, 3, 1⟩ (-2) = ⟨2024, 2, 28⟩ := by decide

/-- Model of `getEasterSunday` (holidays.ts): the Anonymous Gregorian
(Meeus/Butcher) algorithm.  All intermediate JS values are non-negative, so
truncating `Nat` subtraction agrees with the JS arithmetic. -/
def getEasterSunday (year : Nat) : Date :=
  let a := year % 19
  let b := year / 100
  let c := year % 100
  let d := b / 4
  let e := b % 4
  let f := (b + 8) / 25
  let g := (b - f + 1) / 3
  let h := (19 * a + b - d - g + 15) % 30
  let i := c / 4
  let k := c % 4
  let l := (32 + 2 * e + 2 * i - h - k) % 7
  let m := (a + 11 * h + 22 * l) / 451
  let n := (h + l - 7 * m + 114) / 31
  let p := (h + l - 7 * m + 114) % 31
  { year := year, month := n, day := p + 1 }

example : getEasterSunday 2024 = ⟨2024, 3, 31⟩ := by decide
example : getEasterSunday 2025 = ⟨2025, 4, 20⟩ := by decide
example : getEasterSunday 2008 = ⟨2008, 3, 23⟩ := by decide

/-- JS `Set.add` on the list of inserted dates, kept in insertion order. -/
def setAdd (s : List Date) (d : Date) : List Date :=
  if d ∈ s then s else s ++ [d]

theorem mem_setAdd {s : List Date} {a d : Date} :
    d ∈ setAdd s a ↔ d ∈ s ∨ d = a := by
  unfold setAdd
  split
  · constructor
    · exact fun h => Or.inl h
    · rintro (h | rfl)
      · exact h
      · assumption
  · simp

/-- Model of `getFrenchHolidays` (holidays.ts): the set of holiday dates for a
year and region, built exactly as the source builds its `Set<string>` (the
informational `name` fields of the source records are dropped; only the dates
enter the set). -/
def getFrenchHolidays (year : Nat) (region : String) : List Date :=
  let easter := getEasterSunday year
  let fixedHolidays : List Date :=
    [⟨year, 1, 1⟩, ⟨year, 5, 1⟩, ⟨year, 5, 8⟩, ⟨year, 7, 14⟩,
     ⟨year, 8, 15⟩, ⟨year, 11, 1⟩, ⟨year, 11, 11⟩, ⟨year, 12, 25⟩]
  let holidays := fixedHolidays.foldl setAdd []
  let easterOffsets : List Int := [1, 39, 50]
  let holidays := easterOffsets.foldl (fun hs off => setAdd hs (addDays easter off)) holidays
  if region = "FR-67" ∨ region = "FR-68" ∨ region = "FR-57" then
    let holidays := setAdd holidays (addDays easter (-2))
    setAdd holidays ⟨year, 12, 26⟩
  else
    holidays

/-- The eleven national holiday dates enumerated by the claim (in claim
order): Jan 1, May 1, May 8, Jul 14, Aug 15, Nov 1, Nov 11, Dec 25,
Easter + 1, Easter + 39, Easter + 50. -/
def nationalHolidaySpec (year : Nat) : List Date :=
  [⟨year, 1, 1⟩, ⟨year, 5, 1⟩, ⟨year, 5, 8⟩, ⟨year, 7, 14⟩,
   ⟨year, 8, 15⟩, ⟨year, 11, 1⟩, ⟨year, 11, 11⟩, ⟨year, 12, 25⟩,
   addDays (getEasterSunday year) 1, addDays (getEasterSunday year) 39,
   addDays (getEasterSunday year) 50]

/-- The two regional additions the claim names for FR-67, FR-68, FR-57:
Good Friday (Easter − 2) and Dec 26. -/
def alsaceMoselleSpec (year : Nat) : List Date :=
  [addDays (getEasterSunday year) (-2), ⟨year, 12, 26⟩]

/-- The three region codes with the regional additions. -/
def regionalCodes : List String := ["FR-67", "FR-68", "FR-57"]

theorem mem_foldl_setAdd (l : List Date) :
    ∀ (s : List Date) (d : Date), d ∈ l.foldl setAdd s ↔ d ∈ s ∨ d ∈ l := by
  induction l with
  | nil => simp
  | cons a t ih =>
    intro s d
    rw [List.foldl_cons, ih, mem_setAdd]
    simp only [List.mem_cons]
    tauto

theorem foldl_setAdd_map {α : Type} (f : α → Date) (l : List α) :
    ∀ s : List Date,
      l.foldl (fun hs x => setAdd hs (f x)) s = (l.map f).foldl setAdd s := by
  induction l with
  | nil => intro s; rfl
  | cons a t ih => intro s; rw [List.foldl_cons, List.map_cons, List.foldl_cons, ih]

/-- C7: for every year and every region code, `getFrenchHolidays` returns
exactly the eleven national holiday dates for regions outside
{FR-67, FR-68, FR-57} — including unknown region codes, with no error — and
exactly those eleven plus Good Friday and Dec 26 for the three
Alsace-Moselle codes.  Stated as set equality (d ∈ · for every date d). -/
theorem claim_C7_holidays (year : Nat) (region : String) (d : Date) :
    d ∈ getFrenchHolidays year region ↔
      (d ∈ nationalHolidaySpec year ∨
        (region ∈ regionalCodes ∧ d ∈ alsaceMoselleSpec year)) := by
  have hreg : region ∈ regionalCodes ↔
      (region = "FR-67" ∨ region = "FR-68" ∨ region = "FR-57") := by
    simp [regionalCodes]
  simp only [getFrenchHolidays]
  rw [foldl_setAdd_map]
  by_cases h : region = "FR-67" ∨ region = "FR-68" ∨ region = "FR-57"
  · rw [if_pos h]
    rw [mem_setAdd, mem_setAdd, mem_foldl_setAdd, mem_foldl_setAdd]
    simp only [nationalHolidaySpec, alsaceMoselleSpec, hreg, iff_true_intro h,
      true_and, List.mem_cons, List.map_cons, List.map_nil, List.not_mem_nil,
      List.mem_singleton, false_or, or_false, or_assoc]
  · rw [if_neg h]
    rw [mem_foldl_setAdd, mem_foldl_setAdd]
    simp only [nationalHolidaySpec, alsaceMoselleSpec, hreg, iff_false_intro h,
      false_and, List.mem_cons, List.map_cons, List.map_nil, List.not_mem_nil,
      List.mem_singleton, false_or, or_false, or_assoc]

/-- The four fiscal accounts (shared/schema `Account`).  The fixed order used
for deterministic output is the declaration order below. -/
inductive Account
  | operating
  | savings
  | personal
  | vat
deriving DecidableEq, Repr

/-- String name of an account, as used in transaction ids and in the
`localeCompare` sort of the final monthly balances. -/
def Account.accName : Account → String
  | .operating => "operating"
  | .savings => "savings"
  | .personal => "personal"
  | .vat => "vat"

/-- Discriminates RevenuePattern from ExpensePattern.  The source tests field
presence (a TS value of type RevenuePattern has a `vatRate` field, an
ExpensePattern a `vatDeductible` field); the embedding carries the tag. -/
inductive PatternKind
  | revenue
  | expense
deriving DecidableEq, Repr

/-- One entry of `dayOffOverrides` (shared/schema `DayOffOverride`). -/
structure DayOffOverride where
  date : Date
  active : Bool
  reason : Option String
deriving DecidableEq, Repr

/-- A revenue or expense pattern as the engine receives it (the drizzle row
types RevenuePattern / ExpensePattern of shared/schema, restricted to the
fields the engine reads).  `amount` is the parsed decimal string (`parseFloat`
of a positive decimal); `vatRate` is the parsed decimal string of the
revenue-only column, `none` when the column is null — note that the column is
a decimal string in TS, so a stored rate of 0 ("0.00") is truthy and is used,
while null falls back to the 20% default in `createOccurrence`.  Expense-only
columns are `none` on revenue patterns and vice versa. -/
structure Pattern where
  id : String
  name : String
  amount : ℚ
  frequency : String
  startMonth : Nat
  kind : PatternKind
  vatRate : Option ℚ
  category : Option String
  vatDeductible : Option Bool
  daysMask : Option Nat
  excludeWeekends : Bool
  excludeHolidays : Bool
  startDate : Option Date
  dayOffOverrides : List DayOffOverride
  isRecurring : Bool
deriving DecidableEq, Repr

/-- Account posting for double-entry bookkeeping (occurrences.ts
`AccountPosting`).  Positive amount = debit, negative = credit. -/
structure AccountPosting where
  account : Account
  amount : ℚ
  description : String
deriving DecidableEq, Repr

/-- A single financial transaction generated from a pattern (occurrences.ts
`Occurrence`).  `vatRate` is the decimal fraction (0.20 for 20%). -/
structure Occurrence where
  id : String
  patternId : String
  patternName : String
  date : Date
  type : PatternKind
  category : Option String
  grossAmount : ℚ
  vatRate : ℚ
  vatAmount : ℚ
  netAmount : ℚ
  vatDeductible : Option Bool
  accountPostings : List AccountPosting
  frequency : String
  isRecurring : Bool
deriving DecidableEq, Repr

/-- Model of `calculateVAT` (occurrences.ts): split a gross amount into
(vatAmount, netAmount) for a decimal-fraction rate. -/
def calculateVAT (grossAmount vatRate : ℚ) : ℚ × ℚ :=
  let vatAmount := grossAmount * vatRate / (1 + vatRate)
  (vatAmount, grossAmount - vatAmount)

/-- Model of `generateRevenuePostings` (occurrences.ts). -/
def generateRevenuePostings (occurrence : Occurrence) : List AccountPosting :=
  [{ account := Account.operating, amount := occurrence.netAmount,
     description := "Revenue: " ++ occurrence.patternName },
   { account := Account.vat, amount := occurrence.vatAmount,
     description := "VAT on revenue: " ++ occurrence.patternName }]

/-- Model of `generateExpensePostings` (occurrences.ts): operating is always
credited the net amount; the vat account is credited the VAT amount iff the
occurrence is VAT-deductible (JS truthiness: `some true`) and its VAT amount
is positive. -/
def generateExpensePostings (occurrence : Occurrence) : List AccountPosting :=
  let postings : List AccountPosting :=
    [{ account := Account.operating, amount := -occurrence.netAmount,
       description := "Expense: " ++ occurrence.patternName }]
  if occurrence.vatDeductible = some true ∧ 0 < occurrence.vatAmount then
    postings ++ [{ account := Account.vat, amount := -occurrence.vatAmount,
                   description := "Deductible VAT: " ++ occurrence.patternName }]
  else
    postings

/-- Model of `isDateActive` (occurrences.ts): whether a daily pattern fires
on a given date.  The first matching entry of `dayOffOverrides` (JS
`Array.find`) decides outright; otherwise the daysMask bit for the weekday,
then the weekend exclusion, then the holiday exclusion apply. -/
def isDateActive (date : Date) (pattern : Pattern) (holidays : List Date) : Bool :=
  let dayOfWeek := jsGetDay date
  match pattern.dayOffOverrides.find? (fun o => o.date = date) with
  | some override => override.active
  | none =>
    let isActive :=
      match pattern.daysMask with
      | some mask => (mask &&& (1 <<< dayOfWeek)) != 0
      | none => true
    let isActive :=
      if isActive && pattern.excludeWeekends then
        if dayOfWeek = 0 ∨ dayOfWeek = 6 then false else isActive
      else isActive
    let isActive :=
      if isActive && pattern.excludeHolidays then
        if date ∈ holidays then false else isActive
      else isActive
    isActive

/-- Immutable company value (shared/schema `Company`, restricted to the fields
the engine reads or validates).  String fields model JS truthiness by "" =
absent/falsy; `capital` is `none` when null/undefined. -/
structure Company where
  id : String
  userId : String
  name : String
  legalForm : String
  activitySector : String
  capital : Option ℚ
  bankPartner : String
  fiscalYear : Option String
  holidayRegion : String

/-- Model of `createOccurrence` (occurrences.ts).  The VAT rate is the parsed
`vatRate` column over 100 when the pattern is a revenue pattern with a
non-null rate (the TS value is a non-empty decimal string, hence truthy even
for "0.00"), and the 0.20 default otherwise. -/
def createOccurrence (pattern : Pattern) (company : Company) (date : Date) : Occurrence :=
  let grossAmount := pattern.amount
  let vatRate : ℚ :=
    match pattern.kind, pattern.vatRate with
    | PatternKind.revenue, some v => v / 100
    | _, _ => 0.20
  let vn := calculateVAT grossAmount vatRate
  let occurrence : Occurrence :=
    { id := pattern.id ++ "-" ++ formatDateISO date
      patternId := pattern.id
      patternName := pattern.name
      date := date
      type := pattern.kind
      category := pattern.category
      grossAmount := grossAmount
      vatRate := vatRate
      vatAmount := vn.1
      netAmount := vn.2
      vatDeductible := pattern.vatDeductible
      accountPostings := []
      frequency := pattern.frequency
      isRecurring := pattern.isRecurring }
  { occurrence with
      accountPostings :=
        match occurrence.type with
        | PatternKind.revenue => generateRevenuePostings occurrence
        | PatternKind.expense => generateExpensePostings occurrence }

/-- All dates from `startDate` to `endDate` inclusive, in order: the daily
while-loop of `expandDailyPattern` (empty when the start is past the end). -/
def dateRange (startDate endDate : Date) : List Date :=
  (List.range ((daysFromCivil endDate : Int) - daysFromCivil startDate + 1).toNat).map
    (fun i => addDays startDate i)

/-- Model of `expandDailyPattern` (occurrences.ts).  With a `startDate` the
window begins there (clamped into the target year); without one it begins at
the first day of `startMonth` — the source comment says so explicitly
("Default to start of the specified start month").  It always ends Dec 31. -/
def expandDailyPattern (pattern : Pattern) (company : Company) (year : Nat)
    (holidays : List Date) : List Occurrence :=
  let startDate0 : Date :=
    match pattern.startDate with
    | some d => d
    | none => ⟨year, pattern.startMonth, 1⟩
  let endDate : Date := ⟨year, 12, 31⟩
  let startDate := if startDate0.year < year then (⟨year, 1, 1⟩ : Date) else startDate0
  if year < startDate.year then []
  else
    ((dateRange startDate endDate).filter (fun d => isDateActive d pattern holidays)).map
      (fun d => createOccurrence pattern company d)

/-- Model of `expandMonthlyPattern` (occurrences.ts): one occurrence on the
first of each month from `startMonth` through December. -/
def expandMonthlyPattern (pattern : Pattern) (company : Company) (year : Nat) :
    List Occurrence :=
  (List.range' pattern.startMonth (13 - pattern.startMonth)).map
    (fun month => createOccurrence pattern company ⟨year, month, 1⟩)

/-- Model of `expandQuarterlyPattern` (occurrences.ts): `Math.ceil(m/3)` gives
the starting quarter; one occurrence on the first of each quarter-start month
through Q4. -/
def expandQuarterlyPattern (pattern : Pattern) (company : Company) (year : Nat) :
    List Occurrence :=
  let startQuarter := (pattern.startMonth + 2) / 3
  (List.range' startQuarter (5 - startQuarter)).map
    (fun quarter => createOccurrence pattern company ⟨year, (quarter - 1) * 3 + 1, 1⟩)

/-- Model of `expandYearlyPattern` (occurrences.ts). -/
def expandYearlyPattern (pattern : Pattern) (company : Company) (year : Nat) :
    List Occurrence :=
  [createOccurrence pattern company ⟨year, pattern.startMonth, 1⟩]

/-- Model of `expandPattern` (occurrences.ts): dispatch on frequency, with the
holiday set for the company region (`company.holidayRegion || "FR"`)
precomputed.  Unknown frequencies produce no occurrences. -/
def expandPattern (pattern : Pattern) (company : Company) (year : Nat) :
    List Occurrence :=
  let holidayRegion := if company.holidayRegion = "" then "FR" else company.holidayRegion
  let holidays := getFrenchHolidays year holidayRegion
  if pattern.frequency = "daily" then expandDailyPattern pattern company year holidays
  else if pattern.frequency = "monthly" then expandMonthlyPattern pattern company year
  else if pattern.frequency = "quarterly" then expandQuarterlyPattern pattern company year
  else if pattern.frequency = "yearly" then expandYearlyPattern pattern company year
  else []

/-- Model of `expandAllPatterns` (occurrences.ts): revenue patterns first,
then expense patterns, flattened and sorted by date (`localeCompare` of ISO
strings = chronological order; `Array.sort` and insertion sort are both
stable, and the comparator is a total preorder, so they agree). -/
def expandAllPatterns (revenuePatterns expensePatterns : List Pattern)
    (company : Company) (year : Nat) : List Occurrence :=
  let allOccurrences :=
    (revenuePatterns.flatMap (fun p => expandPattern p company year)) ++
    (expensePatterns.flatMap (fun p => expandPattern p company year))
  allOccurrences.insertionSort (fun a b => dateLE a.date b.date)

theorem mem_expandPattern_eq_createOccurrence {p : Pattern} {c : Company} {y : Nat}
    {o : Occurrence} (h : o ∈ expandPattern p c y) :
    ∃ d, o = createOccurrence p c d := by
  simp only [expandPattern] at h
  split at h
  · simp only [expandDailyPattern] at h
    split at h <;> split at h <;>
      first
      | exact absurd h (List.not_mem_nil o)
      | · obtain ⟨d, _, rfl⟩ := List.mem_map.mp h
          exact ⟨d, rfl⟩
  · split at h
    · simp only [expandMonthlyPattern] at h
      obtain ⟨m, _, rfl⟩ := List.mem_map.mp h
      exact ⟨_, rfl⟩
    · split at h
      · simp only [expandQuarterlyPattern] at h
        obtain ⟨q, _, rfl⟩ := List.mem_map.mp h
        exact ⟨_, rfl⟩
      · split at h
        · simp only [expandYearlyPattern] at h
          obtain rfl := List.mem_singleton.mp h
          exact ⟨_, rfl⟩
        · exact absurd h (List.not_mem_nil o)

/-- C5: every occurrence produced from a revenue pattern with a configured
(non-null) VAT rate of r percent, r ∈ {0, 5.5, 10, 20}, has
vatAmount = gross·(r/100)/(1 + r/100) and netAmount = gross − vatAmount; in
particular a configured rate of 0 yields vatAmount = 0 and
netAmount = grossAmount. -/
theorem claim_C5_vat_split (p : Pattern) (c : Company) (y : Nat) (r : ℚ)
    (o : Occurrence)
    (hkind : p.kind = PatternKind.revenue)
    (hrate : p.vatRate = some r)
    (hvals : r = 0 ∨ r = 5.5 ∨ r = 10 ∨ r = 20)
    (hmem : o ∈ expandPattern p c y) :
    o.vatAmount = o.grossAmount * (r / 100) / (1 + r / 100) ∧
    o.netAmount = o.grossAmount - o.vatAmount ∧
    (r = 0 → o.vatAmount = 0 ∧ o.netAmount = o.grossAmount) := by
  obtain ⟨d, rfl⟩ := mem_expandPattern_eq_createOccurrence hmem
  refine ⟨?_, ?_, ?_⟩
  · simp [createOccurrence, calculateVAT, hkind, hrate]
  · simp [createOccurrence, calculateVAT, hkind, hrate]
  · rintro rfl
    simp [createOccurrence, calculateVAT, hkind, hrate]

/-- Monthly revenue pattern at 20% VAT used to witness C5. -/
def c5Pattern : Pattern :=
  { id := "rev-001", name := "Monthly Service Revenue", amount := 12000,
    frequency := "monthly", startMonth := 1, kind := PatternKind.revenue,
    vatRate := some 20, category := none, vatDeductible := none,
    daysMask := none, excludeWeekends := false, excludeHolidays := false,
    startDate := none, dayOffOverrides := [], isRecurring := true }

/-- Test company (mirrors the mock company of the integration tests). -/
def testCompany : Company :=
  { id := "test-company-001", userId := "test-user-001",
    name := "Test Company SAS", legalForm := "sas",
    activitySector := "technology", capital := some 10000,
    bankPartner := "Test Bank", fiscalYear := some "calendar",
    holidayRegion := "FR" }

theorem claim_C5_witness :
    (createOccurrence c5Pattern testCompany ⟨2024, 1, 1⟩).vatAmount =
        (createOccurrence c5Pattern testCompany ⟨2024, 1, 1⟩).grossAmount *
          ((20 : ℚ) / 100) / (1 + (20 : ℚ) / 100) ∧
      (createOccurrence c5Pattern testCompany ⟨2024, 1, 1⟩).netAmount =
        (createOccurrence c5Pattern testCompany ⟨2024, 1, 1⟩).grossAmount -
          (createOccurrence c5Pattern testCompany ⟨2024, 1, 1⟩).vatAmount ∧
      ((20 : ℚ) = 0 →
        (createOccurrence c5Pattern testCompany ⟨2024, 1, 1⟩).vatAmount = 0 ∧
        (createOccurrence c5Pattern testCompany ⟨2024, 1, 1⟩).netAmount =
          (createOccurrence c5Pattern testCompany ⟨2024, 1, 1⟩).grossAmount) :=
  claim_C5_vat_split c5Pattern testCompany 2024 20
    (createOccurrence c5Pattern testCompany ⟨2024, 1, 1⟩)
    rfl rfl (by norm_num)
    (by
      have he : expandPattern c5Pattern testCompany 2024 =
          (List.range' 1 12).map
            (fun month => createOccurrence c5Pattern testCompany ⟨2024, month, 1⟩) := rfl
      rw [he]
      exact List.mem_map.mpr ⟨1, by decide, rfl⟩)

/-- C6: the account postings of every occurrence are exactly: for revenue,
[operating: +netAmount, vat: +vatAmount] in that order; for an expense,
[operating: −netAmount] alone when not (vatDeductible and vatAmount > 0), and
[operating: −netAmount, vat: −vatAmount] when vatDeductible and
vatAmount > 0. -/
theorem claim_C6_postings (pattern : Pattern) (company : Company) (date : Date) :
    (createOccurrence pattern company date).accountPostings =
      (let o := createOccurrence pattern company date
       match o.type with
       | PatternKind.revenue =>
         [{ account := Account.operating, amount := o.netAmount,
            description := "Revenue: " ++ o.patternName },
          { account := Account.vat, amount := o.vatAmount,
            description := "VAT on revenue: " ++ o.patternName }]
       | PatternKind.expense =>
         if o.vatDeductible = some true ∧ 0 < o.vatAmount then
           [{ account := Account.operating, amount := -o.netAmount,
              description := "Expense: " ++ o.patternName },
            { account := Account.vat, amount := -o.vatAmount,
              description := "Deductible VAT: " ++ o.patternName }]
         else
           [{ account := Account.operating, amount := -o.netAmount,
              description := "Expense: " ++ o.patternName }]) := by
  cases hk : pattern.kind <;>
    simp [createOccurrence, generateRevenuePostings, generateExpensePostings, hk]

/-- Daily pattern with two overrides for the same date, the first inactive,
the second (last) active; used to refute the last-wins reading of C3. -/
def c3Pattern : Pattern :=
  { id := "c3", name := "c3", amount := 100, frequency := "daily",
    startMonth := 1, kind := PatternKind.revenue, vatRate := some 20,
    category := none, vatDeductible := none, daysMask := some 127,
    excludeWeekends := false, excludeHolidays := false, startDate := none,
    dayOffOverrides :=
      [{ date := ⟨2024, 6, 10⟩, active := false, reason := none },
       { date := ⟨2024, 6, 10⟩, active := true, reason := none }],
    isRecurring := true }

/-- C3 fails on the code: with duplicate overrides for 2024-06-10 whose last
entry is active, the verdict is still inactive — `Array.find` returns the
first match, so the first duplicate wins, not the last. -/
theorem claim_C3_counterexample :
    (c3Pattern.dayOffOverrides.getLastD
        { date := ⟨2024, 6, 10⟩, active := false, reason := none }).active = true ∧
    isDateActive ⟨2024, 6, 10⟩ c3Pattern [] = false := by decide

/-- C3 amended: the expander's verdict for a date with a matching
dayOffOverride entry is the active flag of the FIRST such entry (duplicates:
the first wins). -/
theorem claim_C3_amended (pattern : Pattern) (holidays : List Date) (date : Date)
    (o : DayOffOverride)
    (hfind : pattern.dayOffOverrides.find? (fun e => e.date = date) = some o) :
    isDateActive date pattern holidays = o.active := by
  unfold isDateActive
  rw [hfind]

theorem claim_C3_amended_witness :
    isDateActive ⟨2024, 6, 10⟩ c3Pattern [] = false :=
  claim_C3_amended c3Pattern [] ⟨2024, 6, 10⟩
    { date := ⟨2024, 6, 10⟩, active := false, reason := none } (by decide)

/-- Daily pattern with startMonth 7, full daysMask, no exclusions, no
overrides and no startDate; used for C4. -/
def c4Pattern : Pattern :=
  { id := "c4", name := "c4", amount := 100, frequency := "daily",
    startMonth := 7, kind := PatternKind.revenue, vatRate := some 20,
    category := none, vatDeductible := none, daysMask := some 127,
    excludeWeekends := false, excludeHolidays := false, startDate := none,
    dayOffOverrides := [], isRecurring := true }

set_option maxRecDepth 4000 in
/-- C4 fails on the code: the daily pattern with no startDate and
startMonth = 7 produces no occurrence on 2024-01-15 (the claim asserts one on
every day of January through June). -/
theorem claim_C4_counterexample :
    ((expandDailyPattern c4Pattern testCompany 2024
        (getFrenchHolidays 2024 "FR")).map (fun o => o.date)).contains
      ⟨2024, 1, 15⟩ = false := by decide

set_option maxRecDepth 4000 in
/-- C4 amended: for a daily pattern with no startDate the expansion window
starts at the first day of startMonth, not Jan 1: the pattern with
startMonth = 7, daysMask = 127, no exclusions and no overrides produces
exactly one occurrence on each of the 184 days from Jul 1 through Dec 31 of
the target year and none on any day of January through June. -/
theorem claim_C4_amended :
    (expandDailyPattern c4Pattern testCompany 2024
        (getFrenchHolidays 2024 "FR")).map (fun o => o.date) =
      (List.range 184).map (fun i => addDays ⟨2024, 7, 1⟩ i) := by decide

/-- Simulation inputs (shared/schema `SimulationInputs`, restricted to the
fields engine.ts reads): target year, fiscal start month and the four
starting balances. -/
structure SimulationInputs where
  year : Nat
  fiscalStartMonth : Nat
  startingBalances : Account → ℚ

/-- The account list the engine iterates over, in its fixed order. -/
def accountsList : List Account :=
  [Account.operating, Account.savings, Account.personal, Account.vat]

/-- Model of `getMonthName` (engine.ts). -/
def getMonthName (month : Nat) : String :=
  match month with
  | 1 => "January"
  | 2 => "February"
  | 3 => "March"
  | 4 => "April"
  | 5 => "May"
  | 6 => "June"
  | 7 => "July"
  | 8 => "August"
  | 9 => "September"
  | 10 => "October"
  | 11 => "November"
  | 12 => "December"
  | _ => "Month " ++ Nat.repr month

/-- Model of `getFiscalMonthName` (engine.ts).  The JS expression
`(c - s + 12) % 12 + 1` is written `(c + 12 - s) % 12 + 1` so that truncating
Nat subtraction agrees with the signed JS arithmetic for s ≤ 12. -/
def getFiscalMonthName (calendarMonth fiscalStartMonth : Nat) : String :=
  if fiscalStartMonth = 1 then getMonthName calendarMonth
  else
    let fiscalMonth := (calendarMonth + 12 - fiscalStartMonth) % 12 + 1
    getMonthName calendarMonth ++ " (FY Month " ++ Nat.repr fiscalMonth ++ ")"

/-- Model of `getFiscalMonthOrder` (engine.ts): the twelve calendar months in
fiscal order, `((fiscalStartMonth + i - 1) % 12) + 1` for i = 0..11 (for the
validated range 1 ≤ fiscalStartMonth the Nat subtraction is exact). -/
def getFiscalMonthOrder (fiscalStartMonth : Nat) : List Nat :=
  (List.range 12).map (fun i => (fiscalStartMonth + i - 1) % 12 + 1)

/-- Transaction record within a month (engine.ts `TransactionRecord`). -/
structure TransactionRecord where
  id : String
  date : Date
  description : String
  amount : ℚ
  sourceOccurrenceId : String
  patternName : String
  type : PatternKind
  category : Option String
deriving DecidableEq, Repr

/-- The `summary` sub-record of a MonthlyAccountBalance. -/
structure BalanceSummary where
  totalDebits : ℚ
  totalCredits : ℚ
  netChange : ℚ
deriving DecidableEq, Repr

/-- Monthly account balance (engine.ts `MonthlyAccountBalance`). -/
structure MonthlyAccountBalance where
  account : Account
  month : Nat
  openingBalance : ℚ
  transactions : List TransactionRecord
  closingBalance : ℚ
  summary : BalanceSummary
deriving DecidableEq, Repr

/-- The engine's `Map<Account, MonthlyAccountBalance[]>`: an array of twelve
buckets (index = calendar month − 1) per account, modelled as a function. -/
def BalanceMap : Type := Account → Nat → MonthlyAccountBalance

/-- Model of `createInitialBalances` (engine.ts): the fiscal start month is
seeded with the starting balance as both opening and closing balance, every
other month starts at zero; all summaries are zero. -/
def createInitialBalances (startingBalances : Account → ℚ)
    (fiscalStartMonth : Nat) : BalanceMap :=
  fun account idx =>
    let month := idx + 1
    if month = fiscalStartMonth then
      { account := account, month := month,
        openingBalance := startingBalances account, transactions := [],
        closingBalance := startingBalances account,
        summary := { totalDebits := 0, totalCredits := 0, netChange := 0 } }
    else
      { account := account, month := month, openingBalance := 0,
        transactions := [], closingBalance := 0,
        summary := { totalDebits := 0, totalCredits := 0, netChange := 0 } }

/-- Pointwise update of one bucket of the balance map (the JS code mutates the
bucket object in place). -/
def updateBucket (bm : BalanceMap) (a : Account) (idx : Nat)
    (b : MonthlyAccountBalance) : BalanceMap :=
  fun a2 i2 => if a2 = a ∧ i2 = idx then b else bm a2 i2

/-- One iteration of the posting loop of `applyOccurrenceToBalances`
(engine.ts): append the transaction record to the bucket of the posting's
account at the occurrence's calendar month, then update debits/credits and
net change. -/
def applyPostingToBalances (occurrence : Occurrence) (posting : AccountPosting)
    (bm : BalanceMap) : BalanceMap :=
  let month := occurrence.date.month
  let monthlyBalance := bm posting.account (month - 1)
  let transaction : TransactionRecord :=
    { id := occurrence.id ++ "-" ++ posting.account.accName
      date := occurrence.date
      description := posting.description
      amount := posting.amount
      sourceOccurrenceId := occurrence.id
      patternName := occurrence.patternName
      type := occurrence.type
      category := occurrence.category }
  let newSummary : BalanceSummary :=
    { totalDebits :=
        if 0 < posting.amount then
          monthlyBalance.summary.totalDebits + posting.amount
        else monthlyBalance.summary.totalDebits
      totalCredits :=
        if 0 < posting.amount then monthlyBalance.summary.totalCredits
        else monthlyBalance.summary.totalCredits + |posting.amount|
      netChange := monthlyBalance.summary.netChange + posting.amount }
  updateBucket bm posting.account (month - 1)
    { monthlyBalance with
        transactions := monthlyBalance.transactions ++ [transaction]
        summary := newSummary }

/-- Model of `applyOccurrenceToBalances` (engine.ts): apply each posting of
the occurrence in declared order. -/
def applyOccurrenceToBalances (occurrence : Occurrence) (bm : BalanceMap) :
    BalanceMap :=
  occurrence.accountPostings.foldl
    (fun acc posting => applyPostingToBalances occurrence posting acc) bm

/-- The occurrences of a given calendar month, in list order (the source
groups occurrences into a Map keyed by month; JS Map lookups preserve the
original insertion order, which is the filter order). -/
def monthOccurrencesFor (occurrences : List Occurrence) (month : Nat) :
    List Occurrence :=
  occurrences.filter (fun occ => occ.date.month = month)

/-- Revenue totals triple of a monthly summary. -/
structure RevenueTotals where
  gross : ℚ
  net : ℚ
  vat : ℚ

/-- Expense totals of a monthly summary. -/
structure ExpenseTotals where
  gross : ℚ
  net : ℚ
  vat : ℚ
  deductibleVat : ℚ

/-- Monthly financial summary (engine.ts `MonthlySummary`). -/
structure MonthlySummary where
  month : Nat
  monthName : String
  revenue : RevenueTotals
  expenses : ExpenseTotals
  netProfit : ℚ
  netVatPosition : ℚ
  accountBalances : Account → ℚ

/-- The per-month body of `calculateMonthlySummaries` (engine.ts): aggregate
the month's occurrences by kind (`Array.reduce` = left fold), snapshot the
closing balances, and name the month. -/
def calculateMonthlySummary (bm : BalanceMap) (occurrences : List Occurrence)
    (fiscalStartMonth month : Nat) : MonthlySummary :=
  let monthOccurrences := monthOccurrencesFor occurrences month
  let revenueOccurrences :=
    monthOccurrences.filter (fun occ => occ.type = PatternKind.revenue)
  let revenue : RevenueTotals :=
    { gross := revenueOccurrences.foldl (fun sum occ => sum + occ.grossAmount) 0
      net := revenueOccurrences.foldl (fun sum occ => sum + occ.netAmount) 0
      vat := revenueOccurrences.foldl (fun sum occ => sum + occ.vatAmount) 0 }
  let expenseOccurrences :=
    monthOccurrences.filter (fun occ => occ.type = PatternKind.expense)
  let expenses : ExpenseTotals :=
    { gross := expenseOccurrences.foldl (fun sum occ => sum + occ.grossAmount) 0
      net := expenseOccurrences.foldl (fun sum occ => sum + occ.netAmount) 0
      vat := expenseOccurrences.foldl (fun sum occ => sum + occ.vatAmount) 0
      deductibleVat := expenseOccurrences.foldl
        (fun sum occ =>
          sum + (if occ.vatDeductible = some true then occ.vatAmount else 0)) 0 }
  { month := month
    monthName := getFiscalMonthName month fiscalStartMonth
    revenue := revenue
    expenses := expenses
    netProfit := revenue.net - expenses.net
    netVatPosition := revenue.vat - expenses.deductibleVat
    accountBalances := fun a => (bm a (month - 1)).closingBalance }

/-- Model of `calculateMonthlySummaries` (engine.ts): one summary per month,
in fiscal order. -/
def calculateMonthlySummaries (bm : BalanceMap) (occurrences : List Occurrence)
    (fiscalStartMonth : Nat) : List MonthlySummary :=
  (getFiscalMonthOrder fiscalStartMonth).map
    (calculateMonthlySummary bm occurrences fiscalStartMonth)

/-- The roll-forward loop of `finalizeBalances` (engine.ts) for the fiscal
months after the first: each month's opening balance becomes the previous
fiscal month's closing balance, and its closing balance that opening plus its
own net change.  `previousFiscalMonth` carries the month processed last. -/
def rollForwardAccount : List Nat → Nat → (Nat → MonthlyAccountBalance) →
    (Nat → MonthlyAccountBalance)
  | [], _, balances => balances
  | month :: rest, previousFiscalMonth, balances =>
    let previousMonthBalance := balances (previousFiscalMonth - 1)
    let monthlyBalance := balances (month - 1)
    let monthlyBalance :=
      { monthlyBalance with
          openingBalance := previousMonthBalance.closingBalance
          closingBalance :=
            previousMonthBalance.closingBalance + monthlyBalance.summary.netChange }
    rollForwardAccount rest month
      (fun i => if i = month - 1 then monthlyBalance else balances i)

/-- Model of the per-account body of `finalizeBalances` (engine.ts): the first
fiscal month closes at opening + net change, the remaining months roll
forward. -/
def finalizeAccount (fiscalMonthOrder : List Nat)
    (balances : Nat → MonthlyAccountBalance) : Nat → MonthlyAccountBalance :=
  match fiscalMonthOrder with
  | [] => balances
  | first :: rest =>
    let firstBalance := balances (first - 1)
    let firstBalance :=
      { firstBalance with
          closingBalance :=
            firstBalance.openingBalance + firstBalance.summary.netChange }
    rollForwardAccount rest first
      (fun i => if i = first - 1 then firstBalance else balances i)

/-- Model of `finalizeBalances` (engine.ts). -/
def finalizeBalances (bm : BalanceMap) (fiscalStartMonth : Nat) : BalanceMap :=
  fun account => finalizeAccount (getFiscalMonthOrder fiscalStartMonth) (bm account)

/-- Overall simulation summary (engine.ts `OverallSummary`). -/
structure OverallSummary where
  totalRevenue : RevenueTotals
  totalExpenses : ExpenseTotals
  netProfit : ℚ
  totalVatCollected : ℚ
  totalVatDeductible : ℚ
  netVatOwed : ℚ
  finalAccountBalances : Account → ℚ

/-- The `reduce` callback of `calculateOverallSummary` (engine.ts):
accumulate one monthly summary into the running revenue/expense totals. -/
def overallStep (acc : RevenueTotals × ExpenseTotals) (monthly : MonthlySummary) :
    RevenueTotals × ExpenseTotals :=
  (({ gross := acc.1.gross + monthly.revenue.gross
      net := acc.1.net + monthly.revenue.net
      vat := acc.1.vat + monthly.revenue.vat } : RevenueTotals),
   ({ gross := acc.2.gross + monthly.expenses.gross
      net := acc.2.net + monthly.expenses.net
      vat := acc.2.vat + monthly.expenses.vat
      deductibleVat := acc.2.deductibleVat + monthly.expenses.deductibleVat } :
      ExpenseTotals))

/-- Model of `calculateOverallSummary` (engine.ts): fold the monthly
summaries into totals; the final balances come from the last element of the
fiscally-ordered summary list. -/
def calculateOverallSummary (monthlySummaries : List MonthlySummary) :
    OverallSummary :=
  let totals := monthlySummaries.foldl overallStep
    (({ gross := 0, net := 0, vat := 0 } : RevenueTotals),
     ({ gross := 0, net := 0, vat := 0, deductibleVat := 0 } : ExpenseTotals))
  { totalRevenue := totals.1
    totalExpenses := totals.2
    netProfit := totals.1.net - totals.2.net
    totalVatCollected := totals.1.vat
    totalVatDeductible := totals.2.deductibleVat
    netVatOwed := totals.1.vat - totals.2.deductibleVat
    finalAccountBalances :=
      match monthlySummaries.getLast? with
      | some finalMonth => finalMonth.accountBalances
      | none => fun _ => 0 }

/-- Model of `validateSimulationInputs` (engine.ts).  The JS falsy check
`!inputs.year` is `year = 0` (subsumed by the range check but mirrored); the
`!inputs.startingBalances` check cannot fire in the typed embedding. -/
def validateSimulationInputs (inputs : SimulationInputs)
    (revenuePatterns expensePatterns : List Pattern) : List String :=
  (if inputs.year = 0 ∨ inputs.year < 2020 ∨ 2030 < inputs.year then
    ["Year must be between 2020 and 2030"] else []) ++
  (if inputs.fiscalStartMonth = 0 ∨ inputs.fiscalStartMonth < 1 ∨
      12 < inputs.fiscalStartMonth then
    ["Fiscal start month must be between 1 and 12"] else []) ++
  (if 100 < revenuePatterns.length + expensePatterns.length then
    ["Too many patterns"] else [])

/-- Model of JavaScript `String.prototype.trim`: strip leading and trailing
whitespace characters. -/
def jsTrim (s : String) : String :=
  ⟨((s.data.dropWhile (fun c => c.isWhitespace)).reverse.dropWhile
      (fun c => c.isWhitespace)).reverse⟩

/-- Model of `validateCompanyForSimulation` (engine.ts); JS falsiness of the
string fields is modelled by the empty string, of `capital` by `none`.  The
`!company` null check cannot fire in the typed embedding. -/
def validateCompanyForSimulation (company : Company) : List String :=
  (if company.id = "" then ["Company ID is required"] else []) ++
  (if company.userId = "" then ["Company must be associated with a user"] else []) ++
  (if company.name = "" ∨ (jsTrim company.name).length = 0 then
    ["Company name is required"] else []) ++
  (if company.legalForm = "" then ["Company legal form is required"] else []) ++
  (if company.activitySector = "" then ["Company activity sector is required"] else []) ++
  (if company.capital = none then ["Company capital is required"] else []) ++
  (if company.bankPartner = "" then ["Company bank partner is required"] else []) ++
  (match company.fiscalYear with
   | some fy =>
     if fy = "calendar" ∨ fy = "fiscal" then []
     else ["Company fiscal year must be either calendar or fiscal"]
   | none => [])

/-- Model of `validateBalanceInvariants` (engine.ts): per account, the opening
balance at the fiscal start month must match the configured starting balance,
and the closing balance of the last fiscal month must equal starting balance
plus the total net change of all twelve buckets, both within 0.01.  Only the
error list is modelled (the source never fills `warnings`). -/
def validateBalanceInvariants (bm : BalanceMap) (inputs : SimulationInputs)
    (fiscalStartMonth : Nat) : List String :=
  let fiscalMonthOrder := getFiscalMonthOrder fiscalStartMonth
  accountsList.flatMap (fun account =>
    let initialBalance := inputs.startingBalances account
    let fiscalStartBalance := bm account (fiscalStartMonth - 1)
    (if 1/100 < |fiscalStartBalance.openingBalance - initialBalance| then
      ["Fiscal start opening balance does not match initial balance"] else []) ++
    (let totalNetPostings := (List.range 12).foldl
        (fun sum idx => sum + (bm account idx).summary.netChange) 0
     let lastFiscalMonth := fiscalMonthOrder.getD 11 0
     let finalBalance := (bm account (lastFiscalMonth - 1)).closingBalance
     let expectedFinalBalance := initialBalance + totalNetPostings
     if 1/100 < |finalBalance - expectedFinalBalance| then
       ["Final balance invariant failed"] else []))

/-- Model of `validateRollForwardInvariants` (engine.ts): for fiscal indices
1..11, the current month's opening must equal the previous fiscal month's
closing, and its closing must equal opening + net change, within 0.01. -/
def validateRollForwardInvariants (bm : BalanceMap) (fiscalStartMonth : Nat) :
    List String :=
  let fiscalMonthOrder := getFiscalMonthOrder fiscalStartMonth
  accountsList.flatMap (fun account =>
    (List.range' 1 11).flatMap (fun fiscalIndex =>
      let currentMonth := fiscalMonthOrder.getD fiscalIndex 0
      let previousMonth := fiscalMonthOrder.getD (fiscalIndex - 1) 0
      let currentMonthBalance := bm account (currentMonth - 1)
      let previousMonthBalance := bm account (previousMonth - 1)
      (if 1/100 < |currentMonthBalance.openingBalance -
          previousMonthBalance.closingBalance| then
        ["Roll-forward invariant failed"] else []) ++
      (if 1/100 < |currentMonthBalance.closingBalance -
          (currentMonthBalance.openingBalance +
            currentMonthBalance.summary.netChange)| then
        ["Closing balance calculation error"] else [])))

/-- Model of `validateVATInvariants` (engine.ts). -/
def validateVATInvariants (monthlyTotals : List MonthlySummary)
    (overallTotals : OverallSummary) : List String :=
  let totalMonthlyVATCollected :=
    monthlyTotals.foldl (fun sum m => sum + m.revenue.vat) 0
  let totalMonthlyVATDeductible :=
    monthlyTotals.foldl (fun sum m => sum + m.expenses.deductibleVat) 0
  (if 1/100 < |totalMonthlyVATCollected - overallTotals.totalVatCollected| then
    ["VAT collected total mismatch"] else []) ++
  (if 1/100 < |totalMonthlyVATDeductible - overallTotals.totalVatDeductible| then
    ["VAT deductible total mismatch"] else []) ++
  (if 1/100 < |(overallTotals.totalVatCollected - overallTotals.totalVatDeductible) -
      overallTotals.netVatOwed| then
    ["Net VAT calculation error"] else [])

/-- Indicative tax numbers carried by a progress snapshot. -/
structure ProgressTaxes where
  tva : ℚ
  urssaf : ℚ
  netCashFlow : ℚ

/-- One progress snapshot passed to the progress callback. -/
structure ProgressUpdate where
  simulationId : String
  currentMonth : Nat
  progress : ℚ
  partialBalances : Option (Account → ℚ)
  taxes : Option ProgressTaxes

/-- Model of `emitProgress` (engine.ts): a snapshot reaches the callback only
when both a callback and a simulation id were supplied. -/
def emitProgress (hasCallback : Bool) (simulationId : Option String)
    (month : Nat) (progress : ℚ) (partialBalances : Option (Account → ℚ))
    (taxes : Option ProgressTaxes) : List ProgressUpdate :=
  match hasCallback, simulationId with
  | true, some sid =>
    [{ simulationId := sid, currentMonth := month, progress := progress,
       partialBalances := partialBalances, taxes := taxes }]
  | _, _ => []

/-- One iteration of the month-processing loop of `runSimulation` (engine.ts,
step 3): apply the month's occurrences, then emit a progress snapshot with
the month's (pre-roll-forward) closing balances and indicative taxes.
NOTE - the source computes the tax figures from `o.postings`, a field that
does not exist on `Occurrence` (the field is named `accountPostings`); the
intended field is used here (see the file header). -/
def monthStep (occurrences : List Occurrence) (hasCallback : Bool)
    (simulationId : Option String) (acc : BalanceMap × List ProgressUpdate)
    (im : Nat × Nat) : BalanceMap × List ProgressUpdate :=
  let i := im.1
  let month := im.2
  let monthOccurrences := monthOccurrencesFor occurrences month
  let bm := monthOccurrences.foldl
    (fun b occurrence => applyOccurrenceToBalances occurrence b) acc.1
  let monthProgress : ℚ := 20 + ((i + 1 : ℚ) / 12) * 60
  let currentBalances : Account → ℚ := fun a => (bm a (month - 1)).closingBalance
  let monthRevenue :=
    (monthOccurrences.filter (fun o => o.type = PatternKind.revenue)).foldl
      (fun sum o => sum + o.accountPostings.foldl (fun s p => s + p.amount) 0) 0
  let monthExpenses :=
    (monthOccurrences.filter (fun o => o.type = PatternKind.expense)).foldl
      (fun sum o => sum + o.accountPostings.foldl (fun s p => s + p.amount) 0) 0
  let taxes : ProgressTaxes :=
    { tva := |currentBalances Account.vat|
      urssaf := monthRevenue * 0.45
      netCashFlow := monthRevenue + monthExpenses }
  (bm, acc.2 ++ emitProgress hasCallback simulationId month monthProgress
    (some currentBalances) (some taxes))

/-- Simulation results (engine.ts `SimulationResults`).  The wall-clock
`processingTimeMs` metadata field is not modelled. -/
structure SimulationResults where
  year : Nat
  fiscalStartMonth : Nat
  monthlyBalances : List MonthlyAccountBalance
  monthlyTotals : List MonthlySummary
  overallTotals : OverallSummary
  totalOccurrences : Nat
  engineVersion : String

/-- The balance fold of `runSimulation` step 3 (engine.ts): the loop walks
the fiscal month order with its index, threading the balance map and the
emitted snapshots. -/
def simApplyFold (inputs : SimulationInputs)
    (revenuePatterns expensePatterns : List Pattern) (company : Company)
    (hasCallback : Bool) (simulationId : Option String) :
    BalanceMap × List ProgressUpdate :=
  let occurrences :=
    expandAllPatterns revenuePatterns expensePatterns company inputs.year
  let balanceMap0 :=
    createInitialBalances inputs.startingBalances inputs.fiscalStartMonth
  ((getFiscalMonthOrder inputs.fiscalStartMonth).enum).foldl
    (monthStep occurrences hasCallback simulationId) (balanceMap0, [])

/-- The finalized balance map of a run (engine.ts step 4). -/
def simFinalBalanceMap (inputs : SimulationInputs)
    (revenuePatterns expensePatterns : List Pattern) (company : Company) :
    BalanceMap :=
  finalizeBalances
    (simApplyFold inputs revenuePatterns expensePatterns company false none).1
    inputs.fiscalStartMonth

/-- The monthly summaries of a run (engine.ts step 5). -/
def simMonthlyTotals (inputs : SimulationInputs)
    (revenuePatterns expensePatterns : List Pattern) (company : Company) :
    List MonthlySummary :=
  calculateMonthlySummaries
    (simFinalBalanceMap inputs revenuePatterns expensePatterns company)
    (expandAllPatterns revenuePatterns expensePatterns company inputs.year)
    inputs.fiscalStartMonth

/-- The overall summary of a run (engine.ts step 6). -/
def simOverallTotals (inputs : SimulationInputs)
    (revenuePatterns expensePatterns : List Pattern) (company : Company) :
    OverallSummary :=
  calculateOverallSummary
    (simMonthlyTotals inputs revenuePatterns expensePatterns company)

/-- The invariant errors collected before the engine returns (engine.ts,
IMPROVEMENT 3). -/
def simInvariantErrors (inputs : SimulationInputs)
    (revenuePatterns expensePatterns : List Pattern) (company : Company) :
    List String :=
  let bm := simFinalBalanceMap inputs revenuePatterns expensePatterns company
  validateBalanceInvariants bm inputs inputs.fiscalStartMonth ++
  validateRollForwardInvariants bm inputs.fiscalStartMonth ++
  validateVATInvariants
    (simMonthlyTotals inputs revenuePatterns expensePatterns company)
    (simOverallTotals inputs revenuePatterns expensePatterns company)

/-- The flattened, fiscally sorted monthly balance list of the results
(engine.ts step 7): the four account arrays are concatenated in account order
and sorted by fiscal month index, ties by account name (`localeCompare`); the
JS sort and insertion sort agree because both are stable and the comparator is
a total preorder. -/
def simSortedMonthlyBalances (inputs : SimulationInputs)
    (revenuePatterns expensePatterns : List Pattern) (company : Company) :
    List MonthlyAccountBalance :=
  let bm := simFinalBalanceMap inputs revenuePatterns expensePatterns company
  let monthlyBalances :=
    accountsList.flatMap (fun a => (List.range 12).map (fun idx => bm a idx))
  let sortingFiscalOrder := getFiscalMonthOrder inputs.fiscalStartMonth
  monthlyBalances.insertionSort (fun a b =>
    sortingFiscalOrder.indexOf a.month < sortingFiscalOrder.indexOf b.month ∨
    (sortingFiscalOrder.indexOf a.month = sortingFiscalOrder.indexOf b.month ∧
      a.account.accName ≤ b.account.accName))

/-- The results value of a successful run. -/
def simResults (inputs : SimulationInputs)
    (revenuePatterns expensePatterns : List Pattern) (company : Company) :
    SimulationResults :=
  { year := inputs.year
    fiscalStartMonth := inputs.fiscalStartMonth
    monthlyBalances :=
      simSortedMonthlyBalances inputs revenuePatterns expensePatterns company
    monthlyTotals := simMonthlyTotals inputs revenuePatterns expensePatterns company
    overallTotals := simOverallTotals inputs revenuePatterns expensePatterns company
    totalOccurrences :=
      (expandAllPatterns revenuePatterns expensePatterns company inputs.year).length
    engineVersion := "v1" }

/-- The snapshots emitted before the invariant check: 10 and 20 on entry,
one per fiscal month, then 85 / 90 / 95. -/
def simPreTrace (inputs : SimulationInputs)
    (revenuePatterns expensePatterns : List Pattern) (company : Company)
    (hasCallback : Bool) (simulationId : Option String) : List ProgressUpdate :=
  emitProgress hasCallback simulationId 1 10 none none ++
  emitProgress hasCallback simulationId 1 20 none none ++
  (simApplyFold inputs revenuePatterns expensePatterns company hasCallback
    simulationId).2 ++
  emitProgress hasCallback simulationId 12 85 none none ++
  emitProgress hasCallback simulationId 12 90 none none ++
  emitProgress hasCallback simulationId 12 95 none none

/-- Model of `runSimulation` (engine.ts): validate the inputs and the
company, run the pipeline, validate the invariants, and return the results
together with the list of snapshots passed to the progress callback.
Validation failures throw before any snapshot is emitted; an invariant
failure throws after the 95% snapshot; the 100% snapshot is emitted only on
success. -/
def runSimulation (inputs : SimulationInputs)
    (revenuePatterns expensePatterns : List Pattern) (company : Company)
    (hasCallback : Bool) (simulationId : Option String) :
    Except String SimulationResults × List ProgressUpdate :=
  if (validateSimulationInputs inputs revenuePatterns expensePatterns ++
      validateCompanyForSimulation company) ≠ [] then
    (Except.error ("Simulation validation failed"), [])
  else if company.id = "" then
    (Except.error ("Invalid company ID format"), [])
  else if company.userId = "" then
    (Except.error ("Invalid user ID format"), [])
  else if simInvariantErrors inputs revenuePatterns expensePatterns company ≠ [] then
    (Except.error ("Critical simulation invariants violated"),
     simPreTrace inputs revenuePatterns expensePatterns company hasCallback
       simulationId)
  else
    (Except.ok (simResults inputs revenuePatterns expensePatterns company),
     simPreTrace inputs revenuePatterns expensePatterns company hasCallback
       simulationId ++
     emitProgress hasCallback simulationId 12 100 none none)

theorem foldl_add_eq {α : Type} (f : α → ℚ) (l : List α) :
    ∀ a : ℚ, l.foldl (fun s x => s + f x) a = a + (l.map f).sum := by
  induction l with
  | nil => intro a; simp
  | cons x t ih =>
    intro a
    rw [List.foldl_cons, ih, List.map_cons, List.sum_cons, add_assoc]

theorem foldl_preserves {α : Type} (P : BalanceMap → Prop)
    (f : BalanceMap → α → BalanceMap) (hf : ∀ bm x, P bm → P (f bm x)) :
    ∀ (l : List α) (bm : BalanceMap), P bm → P (l.foldl f bm) := by
  intro l
  induction l with
  | nil => intro bm h; exact h
  | cons x t ih => intro bm h; exact ih (f bm x) (hf bm x h)

/-- Bundle of concrete facts about the fiscal month order for a valid start
month: length, distinctness, the 0-based index permutation, head, and the
1..12 range of its members. -/
theorem fiscalOrder_facts (s : Nat) (h1 : 1 ≤ s) (h2 : s ≤ 12) :
    (getFiscalMonthOrder s).length = 12 ∧
    (getFiscalMonthOrder s).Nodup ∧
    ((getFiscalMonthOrder s).map (fun m => m - 1)).Perm (List.range 12) ∧
    (getFiscalMonthOrder s).getD 0 0 = s ∧
    (∀ m ∈ getFiscalMonthOrder s, 1 ≤ m ∧ m ≤ 12) := by
  interval_cases s <;>
    exact ⟨by decide, by decide, by decide, by decide, by decide⟩

theorem fiscalOrder_perm_one (s : Nat) (h1 : 1 ≤ s) (h2 : s ≤ 12) :
    (getFiscalMonthOrder s).Perm (getFiscalMonthOrder 1) := by
  interval_cases s <;> decide

theorem rollForwardAccount_untouched (rest : List Nat) :
    ∀ (prev : Nat) (arr : Nat → MonthlyAccountBalance) (i : Nat),
      (∀ m ∈ rest, i ≠ m - 1) → rollForwardAccount rest prev arr i = arr i := by
  induction rest with
  | nil => intro prev arr i _; rfl
  | cons m rest ih =>
    intro prev arr i hi
    simp only [rollForwardAccount]
    rw [ih m _ i (fun k hk => hi k (List.mem_cons_of_mem m hk))]
    rw [if_neg (hi m (List.mem_cons_self m rest))]

theorem rollForwardAccount_preserves (rest : List Nat) :
    ∀ (prev : Nat) (arr : Nat → MonthlyAccountBalance) (i : Nat),
      ((rollForwardAccount rest prev arr) i).summary = (arr i).summary ∧
      ((rollForwardAccount rest prev arr) i).account = (arr i).account ∧
      ((rollForwardAccount rest prev arr) i).month = (arr i).month ∧
      ((rollForwardAccount rest prev arr) i).transactions = (arr i).transactions := by
  induction rest with
  | nil => intro prev arr i; exact ⟨rfl, rfl, rfl, rfl⟩
  | cons m rest ih =>
    intro prev arr i
    simp only [rollForwardAccount]
    refine ⟨(ih m _ i).1.trans ?_, (ih m _ i).2.1.trans ?_,
      (ih m _ i).2.2.1.trans ?_, (ih m _ i).2.2.2.trans ?_⟩ <;>
      by_cases hi : i = m - 1 <;> simp [hi]

theorem rollForwardAccount_last_closing (rest : List Nat) :
    ∀ (prev : Nat) (arr : Nat → MonthlyAccountBalance),
      ((rollForwardAccount rest prev arr) ((rest.getLastD prev) - 1)).closingBalance =
        (arr (prev - 1)).closingBalance +
          (rest.map (fun m => (arr (m - 1)).summary.netChange)).sum := by
  induction rest with
  | nil => intro prev arr; simp [rollForwardAccount]
  | cons m rest ih =>
    intro prev arr
    rw [List.getLastD_cons]
    simp only [rollForwardAccount]
    rw [ih m _]
    have harr : ∀ k : Nat,
        ((fun i => if i = m - 1 then
            { arr (m - 1) with
                openingBalance := (arr (prev - 1)).closingBalance
                closingBalance := (arr (prev - 1)).closingBalance +
                  (arr (m - 1)).summary.netChange }
          else arr i) k).summary.netChange = (arr k).summary.netChange := by
      intro k
      by_cases hk : k = m - 1 <;> simp [hk]
    rw [if_pos rfl]
    simp only [harr]
    rw [List.map_cons, List.sum_cons, add_assoc]

theorem rollForwardAccount_pairs (rest : List Nat) :
    ∀ (prev : Nat) (arr : Nat → MonthlyAccountBalance),
      (prev :: rest).Nodup → (∀ m ∈ prev :: rest, 1 ≤ m) →
      ∀ k, k + 1 < (prev :: rest).length →
        ((rollForwardAccount rest prev arr) ((prev :: rest).getD (k + 1) 0 - 1)).openingBalance =
          ((rollForwardAccount rest prev arr) ((prev :: rest).getD k 0 - 1)).closingBalance ∧
        ((rollForwardAccount rest prev arr) ((prev :: rest).getD (k + 1) 0 - 1)).closingBalance =
          ((rollForwardAccount rest prev arr) ((prev :: rest).getD (k + 1) 0 - 1)).openingBalance +
            ((rollForwardAccount rest prev arr) ((prev :: rest).getD (k + 1) 0 - 1)).summary.netChange := by
  induction rest with
  | nil =>
    intro prev arr _ _ k hk
    exact absurd hk (by simp)
  | cons m rest ih =>
    intro prev arr hnodup hge k hk
    obtain ⟨hpnm, hnd2⟩ := List.nodup_cons.mp hnodup
    have hprev : 1 ≤ prev := hge prev (List.mem_cons_self _ _)
    have hm : 1 ≤ m := hge m (List.mem_cons_of_mem _ (List.mem_cons_self _ _))
    have hmrest : m ∉ rest := (List.nodup_cons.mp hnd2).1
    have hprevm : prev ≠ m := fun h => hpnm (h ▸ List.mem_cons_self m rest)
    have hprevrest : prev ∉ rest := fun h => hpnm (List.mem_cons_of_mem m h)
    cases k with
    | zero =>
      simp only [rollForwardAccount, List.getD_cons_succ, List.getD_cons_zero]
      rw [rollForwardAccount_untouched rest m _ (prev - 1) ?hp]
      case hp =>
        intro x hx
        have hx1 : 1 ≤ x := hge x (List.mem_cons_of_mem _ (List.mem_cons_of_mem _ hx))
        have : prev ≠ x := fun h => hprevrest (h ▸ hx)
        omega
      rw [rollForwardAccount_untouched rest m _ (m - 1) ?hm2]
      case hm2 =>
        intro x hx
        have hx1 : 1 ≤ x := hge x (List.mem_cons_of_mem _ (List.mem_cons_of_mem _ hx))
        have : m ≠ x := fun h => hmrest (h ▸ hx)
        omega
      have hne : prev - 1 ≠ m - 1 := by omega
      rw [if_neg hne, if_pos rfl]
      exact ⟨rfl, rfl⟩
    | succ k2 =>
      simp only [rollForwardAccount, List.getD_cons_succ]
      refine ih m _ hnd2 (fun x hx => hge x (List.mem_cons_of_mem _ hx)) k2 ?_
      simpa using Nat.lt_of_succ_lt_succ (by simpa using hk)

theorem getLastD_eq_getD (l : List Nat) :
    ∀ d : Nat, l ≠ [] → l.getLastD d = l.getD (l.length - 1) 0 := by
  induction l with
  | nil => intro d h; exact absurd rfl h
  | cons a t ih =>
    intro d _
    cases t with
    | nil => rfl
    | cons b t2 =>
      rw [List.getLastD_cons]
      rw [ih a (by simp)]
      show (b :: t2).getD ((b :: t2).length - 1) 0 =
        (a :: b :: t2).getD ((a :: b :: t2).length - 1) 0
      have hlen : (a :: b :: t2).length - 1 = ((b :: t2).length - 1) + 1 := by
        simp
      rw [hlen, List.getD_cons_succ]

theorem finalizeAccount_preserves (order : List Nat)
    (arr : Nat → MonthlyAccountBalance) (i : Nat) :
    ((finalizeAccount order arr) i).summary = (arr i).summary ∧
    ((finalizeAccount order arr) i).account = (arr i).account ∧
    ((finalizeAccount order arr) i).month = (arr i).month ∧
    ((finalizeAccount order arr) i).transactions = (arr i).transactions := by
  cases order with
  | nil => exact ⟨rfl, rfl, rfl, rfl⟩
  | cons first rest =>
    simp only [finalizeAccount]
    refine ⟨(rollForwardAccount_preserves rest first _ i).1.trans ?_,
      (rollForwardAccount_preserves rest first _ i).2.1.trans ?_,
      (rollForwardAccount_preserves rest first _ i).2.2.1.trans ?_,
      (rollForwardAccount_preserves rest first _ i).2.2.2.trans ?_⟩ <;>
      by_cases hi : i = first - 1 <;> simp [hi]

theorem finalizeAccount_first (first : Nat) (rest : List Nat)
    (arr : Nat → MonthlyAccountBalance)
    (hnodup : (first :: rest).Nodup) (hge : ∀ m ∈ first :: rest, 1 ≤ m) :
    ((finalizeAccount (first :: rest) arr) (first - 1)).openingBalance =
      (arr (first - 1)).openingBalance ∧
    ((finalizeAccount (first :: rest) arr) (first - 1)).closingBalance =
      (arr (first - 1)).openingBalance + (arr (first - 1)).summary.netChange := by
  have hfrest : first ∉ rest := (List.nodup_cons.mp hnodup).1
  simp only [finalizeAccount]
  rw [rollForwardAccount_untouched rest first _ (first - 1) ?hf]
  case hf =>
    intro x hx
    have hf1 : 1 ≤ first := hge first (List.mem_cons_self _ _)
    have hx1 : 1 ≤ x := hge x (List.mem_cons_of_mem _ hx)
    have : first ≠ x := fun h => hfrest (h ▸ hx)
    omega
  rw [if_pos rfl]
  exact ⟨rfl, rfl⟩

theorem finalizeAccount_conservation (first : Nat) (rest : List Nat)
    (arr : Nat → MonthlyAccountBalance) :
    ((finalizeAccount (first :: rest) arr) ((rest.getLastD first) - 1)).closingBalance =
      (arr (first - 1)).openingBalance +
        ((first :: rest).map (fun m => (arr (m - 1)).summary.netChange)).sum := by
  simp only [finalizeAccount]
  rw [rollForwardAccount_last_closing]
  rw [if_pos rfl]
  have harr : ∀ k : Nat,
      ((fun i => if i = first - 1 then
          { arr (first - 1) with
              closingBalance := (arr (first - 1)).openingBalance +
                (arr (first - 1)).summary.netChange }
        else arr i) k).summary.netChange = (arr k).summary.netChange := by
    intro k
    by_cases hk : k = first - 1 <;> simp [hk]
  simp only [harr]
  rw [List.map_cons, List.sum_cons, add_assoc]

theorem finalizeAccount_pairs (first : Nat) (rest : List Nat)
    (arr : Nat → MonthlyAccountBalance)
    (hnodup : (first :: rest).Nodup) (hge : ∀ m ∈ first :: rest, 1 ≤ m)
    (k : Nat) (hk : k + 1 < (first :: rest).length) :
    ((finalizeAccount (first :: rest) arr) ((first :: rest).getD (k + 1) 0 - 1)).openingBalance =
      ((finalizeAccount (first :: rest) arr) ((first :: rest).getD k 0 - 1)).closingBalance ∧
    ((finalizeAccount (first :: rest) arr) ((first :: rest).getD (k + 1) 0 - 1)).closingBalance =
      ((finalizeAccount (first :: rest) arr) ((first :: rest).getD (k + 1) 0 - 1)).openingBalance +
        ((finalizeAccount (first :: rest) arr) ((first :: rest).getD (k + 1) 0 - 1)).summary.netChange := by
  simp only [finalizeAccount]
  exact rollForwardAccount_pairs rest first _ hnodup hge k hk

theorem createInitialBalances_fields (sb : Account → ℚ) (s : Nat) (a : Account)
    (i : Nat) :
    ((createInitialBalances sb s) a i).account = a ∧
    ((createInitialBalances sb s) a i).month = i + 1 ∧
    ((createInitialBalances sb s) a i).summary =
      { totalDebits := 0, totalCredits := 0, netChange := 0 } ∧
    ((createInitialBalances sb s) a i).openingBalance =
      (if i + 1 = s then sb a else 0) := by
  unfold createInitialBalances
  by_cases h : i + 1 = s <;> simp [h]

theorem applyPosting_preserves (o : Occurrence) (p : AccountPosting)
    (bm : BalanceMap) (a : Account) (i : Nat) :
    ((applyPostingToBalances o p bm) a i).account = (bm a i).account ∧
    ((applyPostingToBalances o p bm) a i).month = (bm a i).month ∧
    ((applyPostingToBalances o p bm) a i).openingBalance = (bm a i).openingBalance ∧
    ((applyPostingToBalances o p bm) a i).closingBalance = (bm a i).closingBalance := by
  unfold applyPostingToBalances updateBucket
  by_cases h : a = p.account ∧ i = o.date.month - 1
  · obtain ⟨ha, hi⟩ := h
    subst ha
    subst hi
    by_cases hamt : 0 < p.amount <;> simp [hamt]
  · simp [h]

theorem applyPostings_fold_preserves (o : Occurrence) (l : List AccountPosting) :
    ∀ (bm : BalanceMap) (a : Account) (i : Nat),
      ((l.foldl (fun acc p => applyPostingToBalances o p acc) bm) a i).account =
        (bm a i).account ∧
      ((l.foldl (fun acc p => applyPostingToBalances o p acc) bm) a i).month =
        (bm a i).month ∧
      ((l.foldl (fun acc p => applyPostingToBalances o p acc) bm) a i).openingBalance =
        (bm a i).openingBalance ∧
      ((l.foldl (fun acc p => applyPostingToBalances o p acc) bm) a i).closingBalance =
        (bm a i).closingBalance := by
  induction l with
  | nil => exact fun bm a i => ⟨rfl, rfl, rfl, rfl⟩
  | cons p t ih =>
    intro bm a i
    rw [List.foldl_cons]
    exact ⟨(ih _ a i).1.trans (applyPosting_preserves o p bm a i).1,
      (ih _ a i).2.1.trans (applyPosting_preserves o p bm a i).2.1,
      (ih _ a i).2.2.1.trans (applyPosting_preserves o p bm a i).2.2.1,
      (ih _ a i).2.2.2.trans (applyPosting_preserves o p bm a i).2.2.2⟩

theorem applyOccurrence_preserves (o : Occurrence) (bm : BalanceMap) (a : Account)
    (i : Nat) :
    ((applyOccurrenceToBalances o bm) a i).account = (bm a i).account ∧
    ((applyOccurrenceToBalances o bm) a i).month = (bm a i).month ∧
    ((applyOccurrenceToBalances o bm) a i).openingBalance = (bm a i).openingBalance ∧
    ((applyOccurrenceToBalances o bm) a i).closingBalance = (bm a i).closingBalance :=
  applyPostings_fold_preserves o o.accountPostings bm a i

theorem applyOccurrences_fold_preserves (l : List Occurrence) :
    ∀ (bm : BalanceMap) (a : Account) (i : Nat),
      ((l.foldl (fun b occurrence => applyOccurrenceToBalances occurrence b) bm) a i).account =
        (bm a i).account ∧
      ((l.foldl (fun b occurrence => applyOccurrenceToBalances occurrence b) bm) a i).month =
        (bm a i).month ∧
      ((l.foldl (fun b occurrence => applyOccurrenceToBalances occurrence b) bm) a i).openingBalance =
        (bm a i).openingBalance ∧
      ((l.foldl (fun b occurrence => applyOccurrenceToBalances occurrence b) bm) a i).closingBalance =
        (bm a i).closingBalance := by
  induction l with
  | nil => exact fun bm a i => ⟨rfl, rfl, rfl, rfl⟩
  | cons o t ih =>
    intro bm a i
    rw [List.foldl_cons]
    exact ⟨(ih _ a i).1.trans (applyOccurrence_preserves o bm a i).1,
      (ih _ a i).2.1.trans (applyOccurrence_preserves o bm a i).2.1,
      (ih _ a i).2.2.1.trans (applyOccurrence_preserves o bm a i).2.2.1,
      (ih _ a i).2.2.2.trans (applyOccurrence_preserves o bm a i).2.2.2⟩

theorem monthStep_fst (occurrences : List Occurrence) (hc : Bool)
    (sid : Option String) :
    ∀ (l : List (Nat × Nat)) (bm : BalanceMap) (t : List ProgressUpdate),
      (l.foldl (monthStep occurrences hc sid) (bm, t)).1 =
        l.foldl (fun b im => (monthOccurrencesFor occurrences im.2).foldl
          (fun b2 occurrence => applyOccurrenceToBalances occurrence b2) b) bm := by
  intro l
  induction l with
  | nil => intro bm t; rfl
  | cons im t2 ih =>
    intro bm t
    rw [List.foldl_cons, List.foldl_cons]
    exact ih _ _

theorem monthStep_snd (occurrences : List Occurrence) (hc : Bool)
    (sid : Option String) :
    ∀ (l : List (Nat × Nat)) (bm : BalanceMap) (t : List ProgressUpdate),
      ((l.foldl (monthStep occurrences hc sid) (bm, t)).2).map (fun u => u.progress) =
        t.map (fun u => u.progress) ++
        l.flatMap (fun im =>
          (emitProgress hc sid im.2 (20 + ((im.1 + 1 : ℚ) / 12) * 60) none none).map
            (fun u => u.progress)) := by
  intro l
  induction l with
  | nil => intro bm t; simp
  | cons im t2 ih =>
    intro bm t
    rw [List.foldl_cons, List.flatMap_cons]
    rw [ih _ _]
    have hsnd : (monthStep occurrences hc sid (bm, t) im).2.map (fun u => u.progress) =
        t.map (fun u => u.progress) ++
        (emitProgress hc sid im.2 (20 + ((im.1 + 1 : ℚ) / 12) * 60) none none).map
          (fun u => u.progress) := by
      show (t ++ emitProgress hc sid im.2 _ _ _).map (fun u => u.progress) = _
      rw [List.map_append]
      cases hc <;> cases sid <;> rfl
    rw [hsnd, List.append_assoc]

theorem overallStep_fold (l : List MonthlySummary) :
    ∀ acc : RevenueTotals × ExpenseTotals,
      (l.foldl overallStep acc).1.net = acc.1.net + (l.map (fun m => m.revenue.net)).sum ∧
      (l.foldl overallStep acc).1.vat = acc.1.vat + (l.map (fun m => m.revenue.vat)).sum ∧
      (l.foldl overallStep acc).2.net = acc.2.net + (l.map (fun m => m.expenses.net)).sum ∧
      (l.foldl overallStep acc).2.deductibleVat =
        acc.2.deductibleVat + (l.map (fun m => m.expenses.deductibleVat)).sum := by
  induction l with
  | nil => intro acc; simp
  | cons m t ih =>
    intro acc
    rw [List.foldl_cons]
    refine ⟨(ih _).1.trans ?_, (ih _).2.1.trans ?_, (ih _).2.2.1.trans ?_,
      (ih _).2.2.2.trans ?_⟩ <;>
      simp [overallStep, add_assoc]

/-- Field characterization of the overall summary: the totals are the sums of
the corresponding monthly fields, and netVatOwed is their difference. -/
theorem calculateOverallSummary_fields (l : List MonthlySummary) :
    (calculateOverallSummary l).totalVatCollected =
      (l.map (fun m => m.revenue.vat)).sum ∧
    (calculateOverallSummary l).totalVatDeductible =
      (l.map (fun m => m.expenses.deductibleVat)).sum ∧
    (calculateOverallSummary l).netProfit =
      (l.map (fun m => m.revenue.net)).sum - (l.map (fun m => m.expenses.net)).sum ∧
    (calculateOverallSummary l).netVatOwed =
      (calculateOverallSummary l).totalVatCollected -
        (calculateOverallSummary l).totalVatDeductible := by
  obtain ⟨h1, h2, h3, h4⟩ := overallStep_fold l
    (({ gross := 0, net := 0, vat := 0 } : RevenueTotals),
     ({ gross := 0, net := 0, vat := 0, deductibleVat := 0 } : ExpenseTotals))
  refine ⟨?_, ?_, ?_, rfl⟩
  · show (l.foldl overallStep _).1.vat = _
    rw [h2]; ring
  · show (l.foldl overallStep _).2.deductibleVat = _
    rw [h4]; ring
  · show (l.foldl overallStep _).1.net - (l.foldl overallStep _).2.net = _
    rw [h1, h3]; ring

/-- Arithmetic well-formedness of a bucket summary: debits and credits are
non-negative and the net change is their difference. -/
def summaryOK (s : BalanceSummary) : Prop :=
  0 ≤ s.totalDebits ∧ 0 ≤ s.totalCredits ∧
    s.netChange = s.totalDebits - s.totalCredits

theorem applyPosting_summaryOK (o : Occurrence) (p : AccountPosting)
    (bm : BalanceMap) (h : ∀ a i, summaryOK ((bm a i).summary)) :
    ∀ a i, summaryOK (((applyPostingToBalances o p bm) a i).summary) := by
  intro a i
  simp only [applyPostingToBalances, updateBucket]
  by_cases hcond : a = p.account ∧ i = o.date.month - 1
  · obtain ⟨rfl, rfl⟩ := hcond
    obtain ⟨hd, hc, hn⟩ := h p.account (o.date.month - 1)
    rw [if_pos ⟨rfl, rfl⟩]
    by_cases hamt : 0 < p.amount
    · simp only [if_pos hamt]
      refine ⟨?_, ?_, ?_⟩
      · show (0 : ℚ) ≤ (bm p.account (o.date.month - 1)).summary.totalDebits + p.amount
        linarith
      · show (0 : ℚ) ≤ (bm p.account (o.date.month - 1)).summary.totalCredits
        exact hc
      · show (bm p.account (o.date.month - 1)).summary.netChange + p.amount =
          ((bm p.account (o.date.month - 1)).summary.totalDebits + p.amount) -
            (bm p.account (o.date.month - 1)).summary.totalCredits
        rw [hn]; ring
    · simp only [if_neg hamt]
      have habs : |p.amount| = -p.amount := abs_of_nonpos (le_of_not_lt hamt)
      refine ⟨?_, ?_, ?_⟩
      · show (0 : ℚ) ≤ (bm p.account (o.date.month - 1)).summary.totalDebits
        exact hd
      · show (0 : ℚ) ≤ (bm p.account (o.date.month - 1)).summary.totalCredits + |p.amount|
        have := abs_nonneg p.amount
        linarith
      · show (bm p.account (o.date.month - 1)).summary.netChange + p.amount =
          (bm p.account (o.date.month - 1)).summary.totalDebits -
            ((bm p.account (o.date.month - 1)).summary.totalCredits + |p.amount|)
        rw [hn, habs]; ring
  · rw [if_neg hcond]
    exact h a i

theorem applyOccurrence_summaryOK (o : Occurrence) :
    ∀ (bm : BalanceMap), (∀ a i, summaryOK ((bm a i).summary)) →
      ∀ a i, summaryOK (((applyOccurrenceToBalances o bm) a i).summary) := by
  unfold applyOccurrenceToBalances
  generalize o.accountPostings = l
  induction l with
  | nil => exact fun bm h => h
  | cons p t ih =>
    intro bm h
    rw [List.foldl_cons]
    exact ih _ (applyPosting_summaryOK o p bm h)

/-- The pure balance part of the month-processing loop (the first component
of `simApplyFold`, see `simApplyFold_fst`). -/
def applyMonths (occurrences : List Occurrence) (order : List Nat)
    (bm : BalanceMap) : BalanceMap :=
  order.foldl (fun b month => (monthOccurrencesFor occurrences month).foldl
    (fun b2 occurrence => applyOccurrenceToBalances occurrence b2) b) bm

theorem simApplyFold_fst (inputs : SimulationInputs)
    (revenuePatterns expensePatterns : List Pattern) (company : Company)
    (hc : Bool) (sid : Option String) :
    (simApplyFold inputs revenuePatterns expensePatterns company hc sid).1 =
      applyMonths (expandAllPatterns revenuePatterns expensePatterns company inputs.year)
        (getFiscalMonthOrder inputs.fiscalStartMonth)
        (createInitialBalances inputs.startingBalances inputs.fiscalStartMonth) := by
  simp only [simApplyFold, applyMonths]
  rw [monthStep_fst]
  conv_rhs =>
    rw [← List.enum_map_snd (getFiscalMonthOrder inputs.fiscalStartMonth),
      List.foldl_map]

theorem applyMonths_preserves (occurrences : List Occurrence) (order : List Nat) :
    ∀ (bm : BalanceMap) (a : Account) (i : Nat),
      ((applyMonths occurrences order bm) a i).account = (bm a i).account ∧
      ((applyMonths occurrences order bm) a i).month = (bm a i).month ∧
      ((applyMonths occurrences order bm) a i).openingBalance = (bm a i).openingBalance := by
  induction order with
  | nil => exact fun bm a i => ⟨rfl, rfl, rfl⟩
  | cons month rest ih =>
    intro bm a i
    simp only [applyMonths, List.foldl_cons] at ih ⊢
    exact ⟨(ih _ a i).1.trans
        (applyOccurrences_fold_preserves (monthOccurrencesFor occurrences month) bm a i).1,
      (ih _ a i).2.1.trans
        (applyOccurrences_fold_preserves (monthOccurrencesFor occurrences month) bm a i).2.1,
      (ih _ a i).2.2.trans
        (applyOccurrences_fold_preserves (monthOccurrencesFor occurrences month) bm a i).2.2.1⟩

theorem applyMonths_summaryOK (occurrences : List Occurrence) (order : List Nat)
    (bm : BalanceMap) (h : ∀ a i, summaryOK ((bm a i).summary)) :
    ∀ a i, summaryOK (((applyMonths occurrences order bm) a i).summary) :=
  foldl_preserves (fun b => ∀ a i, summaryOK ((b a i).summary)) _
    (fun b month hb =>
      foldl_preserves (fun b2 => ∀ a i, summaryOK ((b2 a i).summary)) _
        (fun b2 occurrence hb2 => applyOccurrence_summaryOK occurrence b2 hb2)
        (monthOccurrencesFor occurrences month) b hb)
    order bm h

theorem flatMap_eq_nil {α β : Type} (l : List α) (f : α → List β)
    (h : ∀ x ∈ l, f x = []) : l.flatMap f = [] := by
  induction l with
  | nil => rfl
  | cons x t ih =>
    rw [List.flatMap_cons, h x (List.mem_cons_self _ _),
      ih (fun y hy => h y (List.mem_cons_of_mem _ hy))]
    rfl

/-- The expanded occurrence list of a run (`occurrences` in engine.ts). -/
def simOccurrences (inputs : SimulationInputs)
    (revenuePatterns expensePatterns : List Pattern) (company : Company) :
    List Occurrence :=
  expandAllPatterns revenuePatterns expensePatterns company inputs.year

/-- The balance map after all postings have been applied (before
roll-forward). -/
def simAppliedBalanceMap (inputs : SimulationInputs)
    (revenuePatterns expensePatterns : List Pattern) (company : Company) :
    BalanceMap :=
  applyMonths (simOccurrences inputs revenuePatterns expensePatterns company)
    (getFiscalMonthOrder inputs.fiscalStartMonth)
    (createInitialBalances inputs.startingBalances inputs.fiscalStartMonth)

theorem simFinalBalanceMap_eq (inputs : SimulationInputs)
    (revenuePatterns expensePatterns : List Pattern) (company : Company) :
    simFinalBalanceMap inputs revenuePatterns expensePatterns company =
      fun a => finalizeAccount (getFiscalMonthOrder inputs.fiscalStartMonth)
        ((simAppliedBalanceMap inputs revenuePatterns expensePatterns company) a) := by
  unfold simFinalBalanceMap finalizeBalances
  rw [simApplyFold_fst]
  rfl

theorem bmA_fields (inputs : SimulationInputs)
    (revenuePatterns expensePatterns : List Pattern) (company : Company)
    (a : Account) (i : Nat) :
    ((simAppliedBalanceMap inputs revenuePatterns expensePatterns company) a i).account = a ∧
    ((simAppliedBalanceMap inputs revenuePatterns expensePatterns company) a i).month = i + 1 ∧
    ((simAppliedBalanceMap inputs revenuePatterns expensePatterns company) a i).openingBalance =
      (if i + 1 = inputs.fiscalStartMonth then inputs.startingBalances a else 0) := by
  obtain ⟨h1, h2, h3⟩ := applyMonths_preserves
    (simOccurrences inputs revenuePatterns expensePatterns company)
    (getFiscalMonthOrder inputs.fiscalStartMonth)
    (createInitialBalances inputs.startingBalances inputs.fiscalStartMonth) a i
  obtain ⟨g1, g2, _, g4⟩ := createInitialBalances_fields inputs.startingBalances
    inputs.fiscalStartMonth a i
  exact ⟨h1.trans g1, h2.trans g2, h3.trans g4⟩

theorem bmF_fields (inputs : SimulationInputs)
    (revenuePatterns expensePatterns : List Pattern) (company : Company)
    (a : Account) (i : Nat) :
    ((simFinalBalanceMap inputs revenuePatterns expensePatterns company) a i).summary =
      ((simAppliedBalanceMap inputs revenuePatterns expensePatterns company) a i).summary ∧
    ((simFinalBalanceMap inputs revenuePatterns expensePatterns company) a i).account = a ∧
    ((simFinalBalanceMap inputs revenuePatterns expensePatterns company) a i).month = i + 1 := by
  rw [simFinalBalanceMap_eq]
  obtain ⟨h1, h2, h3, _⟩ := finalizeAccount_preserves
    (getFiscalMonthOrder inputs.fiscalStartMonth)
    ((simAppliedBalanceMap inputs revenuePatterns expensePatterns company) a) i
  obtain ⟨g1, g2, _⟩ := bmA_fields inputs revenuePatterns expensePatterns company a i
  exact ⟨h1, h2.trans g1, h3.trans g2⟩

theorem bmF_summaryOK (inputs : SimulationInputs)
    (revenuePatterns expensePatterns : List Pattern) (company : Company)
    (a : Account) (i : Nat) :
    summaryOK (((simFinalBalanceMap inputs revenuePatterns expensePatterns company) a i).summary) := by
  rw [(bmF_fields inputs revenuePatterns expensePatterns company a i).1]
  refine applyMonths_summaryOK _ _ _ ?_ a i
  intro a2 i2
  rw [(createInitialBalances_fields inputs.startingBalances
    inputs.fiscalStartMonth a2 i2).2.2.1]
  exact ⟨le_refl 0, le_refl 0, by norm_num⟩

theorem bmF_opening_seed (inputs : SimulationInputs)
    (revenuePatterns expensePatterns : List Pattern) (company : Company)
    (hs1 : 1 ≤ inputs.fiscalStartMonth) (hs2 : inputs.fiscalStartMonth ≤ 12)
    (a : Account) :
    ((simFinalBalanceMap inputs revenuePatterns expensePatterns company) a
      (inputs.fiscalStartMonth - 1)).openingBalance =
      inputs.startingBalances a := by
  obtain ⟨hlen, hnodup, hperm, hhead, hmem⟩ :=
    fiscalOrder_facts inputs.fiscalStartMonth hs1 hs2
  rw [simFinalBalanceMap_eq]
  rcases horder : getFiscalMonthOrder inputs.fiscalStartMonth with _ | ⟨first, rest⟩
  · rw [horder] at hlen; simp at hlen
  · rw [horder] at hnodup hmem hhead
    have hfirst : first = inputs.fiscalStartMonth := by
      simpa using hhead
    have hf1 : 1 ≤ first := (hmem first (List.mem_cons_self _ _)).1
    simp only []
    rw [← hfirst]
    rw [(finalizeAccount_first first rest _ hnodup (fun m hm => (hmem m hm).1)).1]
    rw [(bmA_fields inputs revenuePatterns expensePatterns company a (first - 1)).2.2]
    rw [if_pos (by omega)]

theorem bmF_conservation (inputs : SimulationInputs)
    (revenuePatterns expensePatterns : List Pattern) (company : Company)
    (hs1 : 1 ≤ inputs.fiscalStartMonth) (hs2 : inputs.fiscalStartMonth ≤ 12)
    (a : Account) :
    ((simFinalBalanceMap inputs revenuePatterns expensePatterns company) a
      ((getFiscalMonthOrder inputs.fiscalStartMonth).getD 11 0 - 1)).closingBalance =
      inputs.startingBalances a +
        ((List.range 12).map (fun i =>
          ((simAppliedBalanceMap inputs revenuePatterns expensePatterns company) a
            i).summary.netChange)).sum := by
  obtain ⟨hlen, hnodup, hperm, hhead, hmem⟩ :=
    fiscalOrder_facts inputs.fiscalStartMonth hs1 hs2
  rw [simFinalBalanceMap_eq]
  rcases horder : getFiscalMonthOrder inputs.fiscalStartMonth with _ | ⟨first, rest⟩
  · rw [horder] at hlen; simp at hlen
  · rw [horder] at hnodup hmem hhead hperm hlen
    have hfirst : first = inputs.fiscalStartMonth := by
      simpa using hhead
    have hlast : (first :: rest).getD 11 0 = rest.getLastD first := by
      rw [show rest.getLastD first = (first :: rest).getLastD 0 from
        (List.getLastD_cons 0 first rest).symm]
      rw [getLastD_eq_getD (first :: rest) 0 (by simp), hlen]
    simp only []
    rw [hlast]
    rw [finalizeAccount_conservation first rest _]
    congr 1
    · rw [(bmA_fields inputs revenuePatterns expensePatterns company a (first - 1)).2.2]
      rw [if_pos (by omega)]
    · rw [show ((first :: rest).map (fun m =>
          ((simAppliedBalanceMap inputs revenuePatterns expensePatterns company) a
            (m - 1)).summary.netChange)) =
          (((first :: rest).map (fun m => m - 1)).map (fun i =>
            ((simAppliedBalanceMap inputs revenuePatterns expensePatterns company) a
              i).summary.netChange)) from by rw [List.map_map]; rfl]
      exact (hperm.map _).sum_eq

theorem validateBalanceInvariants_nil (inputs : SimulationInputs)
    (revenuePatterns expensePatterns : List Pattern) (company : Company)
    (hs1 : 1 ≤ inputs.fiscalStartMonth) (hs2 : inputs.fiscalStartMonth ≤ 12) :
    validateBalanceInvariants
      (simFinalBalanceMap inputs revenuePatterns expensePatterns company) inputs
      inputs.fiscalStartMonth = [] := by
  unfold validateBalanceInvariants
  apply flatMap_eq_nil
  intro a _
  simp only []
  have hsum : ∀ i : Nat,
      ((simFinalBalanceMap inputs revenuePatterns expensePatterns company) a i).summary =
      ((simAppliedBalanceMap inputs revenuePatterns expensePatterns company) a i).summary :=
    fun i => (bmF_fields inputs revenuePatterns expensePatterns company a i).1
  rw [if_neg ?h1, if_neg ?h2]
  · rfl
  case h1 =>
    rw [bmF_opening_seed inputs revenuePatterns expensePatterns company hs1 hs2 a]
    simp only [sub_self, abs_zero]
    norm_num
  case h2 =>
    rw [foldl_add_eq (fun idx =>
      ((simFinalBalanceMap inputs revenuePatterns expensePatterns company) a
        idx).summary.netChange)]
    simp only [hsum, zero_add]
    rw [bmF_conservation inputs revenuePatterns expensePatterns company hs1 hs2 a]
    simp only [sub_self, abs_zero]
    norm_num

theorem validateRollForwardInvariants_nil (inputs : SimulationInputs)
    (revenuePatterns expensePatterns : List Pattern) (company : Company)
    (hs1 : 1 ≤ inputs.fiscalStartMonth) (hs2 : inputs.fiscalStartMonth ≤ 12) :
    validateRollForwardInvariants
      (simFinalBalanceMap inputs revenuePatterns expensePatterns company)
      inputs.fiscalStartMonth = [] := by
  unfold validateRollForwardInvariants
  apply flatMap_eq_nil
  intro a _
  apply flatMap_eq_nil
  intro idx hidx
  obtain ⟨j, hj, rfl⟩ := List.mem_range'.mp hidx
  obtain ⟨hlen, hnodup, hperm, hhead, hmem⟩ :=
    fiscalOrder_facts inputs.fiscalStartMonth hs1 hs2
  rcases horder : getFiscalMonthOrder inputs.fiscalStartMonth with _ | ⟨first, rest⟩
  · rw [horder] at hlen; simp at hlen
  · rw [horder] at hnodup hmem hlen
    obtain ⟨hp1, hp2⟩ := finalizeAccount_pairs first rest
      ((simAppliedBalanceMap inputs revenuePatterns expensePatterns company) a)
      hnodup (fun m hm => (hmem m hm).1) (1 + 1 * j - 1) (by rw [hlen]; omega)
    have hidxeq : 1 + 1 * j - 1 + 1 = 1 + 1 * j := by omega
    rw [hidxeq] at hp1 hp2
    simp only [simFinalBalanceMap_eq, horder]
    rw [if_neg ?g1, if_neg ?g2]
    · rfl
    case g1 =>
      rw [hp1]
      simp only [sub_self, abs_zero]
      norm_num
    case g2 =>
      rw [hp2]
      simp only [sub_self, abs_zero]
      norm_num

theorem validateVATInvariants_nil (inputs : SimulationInputs)
    (revenuePatterns expensePatterns : List Pattern) (company : Company) :
    validateVATInvariants
      (simMonthlyTotals inputs revenuePatterns expensePatterns company)
      (simOverallTotals inputs revenuePatterns expensePatterns company) = [] := by
  obtain ⟨hvat, hded, _, hnet⟩ := calculateOverallSummary_fields
    (simMonthlyTotals inputs revenuePatterns expensePatterns company)
  have hovr : simOverallTotals inputs revenuePatterns expensePatterns company =
      calculateOverallSummary
        (simMonthlyTotals inputs revenuePatterns expensePatterns company) := rfl
  unfold validateVATInvariants
  simp only []
  rw [if_neg ?v1, if_neg ?v2, if_neg ?v3]
  · rfl
  case v1 =>
    rw [foldl_add_eq (fun m : MonthlySummary => m.revenue.vat), zero_add, hovr, hvat]
    simp only [sub_self, abs_zero]
    norm_num
  case v2 =>
    rw [foldl_add_eq (fun m : MonthlySummary => m.expenses.deductibleVat), zero_add,
      hovr, hded]
    simp only [sub_self, abs_zero]
    norm_num
  case v3 =>
    rw [hovr, hnet]
    simp only [sub_self, abs_zero]
    norm_num

theorem simInvariantErrors_nil (inputs : SimulationInputs)
    (revenuePatterns expensePatterns : List Pattern) (company : Company)
    (hs1 : 1 ≤ inputs.fiscalStartMonth) (hs2 : inputs.fiscalStartMonth ≤ 12) :
    simInvariantErrors inputs revenuePatterns expensePatterns company = [] := by
  unfold simInvariantErrors
  simp only []
  rw [validateBalanceInvariants_nil inputs revenuePatterns expensePatterns company hs1 hs2,
    validateRollForwardInvariants_nil inputs revenuePatterns expensePatterns company hs1 hs2,
    validateVATInvariants_nil inputs revenuePatterns expensePatterns company]
  rfl

theorem if_singleton_eq_nil {c : Prop} [Decidable c] {s : String}
    (h : (if c then [s] else []) = []) : ¬c := by
  by_cases hc : c
  · rw [if_pos hc] at h
    exact absurd h (by simp)
  · exact hc

/-- Successful validation pins the fiscal start month to 1..12 and the
company ids to non-empty strings. -/
theorem validation_bounds (inputs : SimulationInputs)
    (revenuePatterns expensePatterns : List Pattern) (company : Company)
    (h : validateSimulationInputs inputs revenuePatterns expensePatterns ++
      validateCompanyForSimulation company = []) :
    1 ≤ inputs.fiscalStartMonth ∧ inputs.fiscalStartMonth ≤ 12 ∧
      company.id ≠ "" ∧ company.userId ≠ "" ∧
      2020 ≤ inputs.year ∧ inputs.year ≤ 2030 := by
  rw [List.append_eq_nil] at h
  obtain ⟨hinp, hcomp⟩ := h
  simp only [validateSimulationInputs, List.append_eq_nil] at hinp
  simp only [validateCompanyForSimulation, List.append_eq_nil] at hcomp
  obtain ⟨⟨hyear, hmonth⟩, _⟩ := hinp
  obtain ⟨⟨⟨⟨⟨⟨⟨hid, huid⟩, _⟩, _⟩, _⟩, _⟩, _⟩, _⟩ := hcomp
  have hy := if_singleton_eq_nil hyear
  have hs := if_singleton_eq_nil hmonth
  have hid2 := if_singleton_eq_nil hid
  have huid2 := if_singleton_eq_nil huid
  push_neg at hy hs
  exact ⟨by omega, by omega, fun hne => hid2 hne, fun hne => huid2 hne,
    by omega, by omega⟩

/-- A run on validated inputs always succeeds: with exact rational
arithmetic every invariant check passes, so `runSimulation` returns the
results value and the full snapshot trace. -/
theorem runSimulation_ok (inputs : SimulationInputs)
    (revenuePatterns expensePatterns : List Pattern) (company : Company)
    (hc : Bool) (sid : Option String)
    (hval : validateSimulationInputs inputs revenuePatterns expensePatterns ++
      validateCompanyForSimulation company = []) :
    runSimulation inputs revenuePatterns expensePatterns company hc sid =
      (Except.ok (simResults inputs revenuePatterns expensePatterns company),
       simPreTrace inputs revenuePatterns expensePatterns company hc sid ++
         emitProgress hc sid 12 100 none none) := by
  obtain ⟨hs1, hs2, hid, huid, _, _⟩ :=
    validation_bounds inputs revenuePatterns expensePatterns company hval
  unfold runSimulation
  rw [if_neg (by rw [hval]; exact fun h => h rfl)]
  rw [if_neg hid, if_neg huid]
  rw [if_neg (by
    rw [simInvariantErrors_nil inputs revenuePatterns expensePatterns company hs1 hs2]
    exact fun h => h rfl)]

theorem runSimulation_ok_inv (inputs : SimulationInputs)
    (revenuePatterns expensePatterns : List Pattern) (company : Company)
    (hc : Bool) (sid : Option String) (res : SimulationResults)
    (hok : (runSimulation inputs revenuePatterns expensePatterns company hc sid).1 =
      Except.ok res) :
    res = simResults inputs revenuePatterns expensePatterns company ∧
    validateSimulationInputs inputs revenuePatterns expensePatterns ++
      validateCompanyForSimulation company = [] := by
  by_cases hval : validateSimulationInputs inputs revenuePatterns expensePatterns ++
      validateCompanyForSimulation company = []
  · rw [runSimulation_ok inputs revenuePatterns expensePatterns company hc sid hval] at hok
    exact ⟨(Except.ok.inj hok).symm, hval⟩
  · unfold runSimulation at hok
    rw [if_pos hval] at hok
    exact absurd hok (by simp)

theorem flatMap_filter_account (F : BalanceMap)
    (hacc : ∀ a i, (F a i).account = a) (acc : Account) :
    ((accountsList.flatMap (fun a => (List.range 12).map (fun i => F a i))).filter
      (fun b2 => b2.account = acc)) = (List.range 12).map (fun i => F acc i) := by
  have hblock : ∀ a2 : Account,
      (((List.range 12).map (fun i => F a2 i)).filter (fun b2 => b2.account = acc)) =
        (if a2 = acc then (List.range 12).map (fun i => F a2 i) else []) := by
    intro a2
    rw [List.filter_map]
    by_cases ha : a2 = acc
    · rw [if_pos ha]
      rw [List.filter_eq_self.mpr]
      intro x _
      simp [Function.comp, hacc, ha]
    · rw [if_neg ha]
      rw [List.filter_eq_nil_iff.mpr]
      · rfl
      · intro x _
        simp [Function.comp, hacc, ha]
  simp only [accountsList, List.flatMap_cons, List.flatMap_nil, List.filter_append,
    hblock, List.append_nil]
  cases acc <;> simp

set_option maxHeartbeats 1000000 in
theorem simResults_monthlyBalances_perm (inputs : SimulationInputs)
    (revenuePatterns expensePatterns : List Pattern) (company : Company) :
    ((simResults inputs revenuePatterns expensePatterns company).monthlyBalances).Perm
      (accountsList.flatMap (fun a => (List.range 12).map (fun i =>
        (simFinalBalanceMap inputs revenuePatterns expensePatterns company) a i))) := by
  simp only [simResults]
  unfold simSortedMonthlyBalances
  simp only []
  exact List.perm_insertionSort _ _

theorem mem_simResults_monthlyBalances (inputs : SimulationInputs)
    (revenuePatterns expensePatterns : List Pattern) (company : Company)
    {b : MonthlyAccountBalance}
    (hb : b ∈ (simResults inputs revenuePatterns expensePatterns company).monthlyBalances) :
    ∃ a : Account, ∃ i : Nat, i < 12 ∧
      b = (simFinalBalanceMap inputs revenuePatterns expensePatterns company) a i := by
  have hb2 := (simResults_monthlyBalances_perm inputs revenuePatterns expensePatterns
    company).mem_iff.mp hb
  obtain ⟨a, _, hbm⟩ := List.mem_flatMap.mp hb2
  obtain ⟨i, hi, rfl⟩ := List.mem_map.mp hbm
  exact ⟨a, i, List.mem_range.mp hi, rfl⟩

theorem fiscalOrder_last_bounds (s : Nat) (h1 : 1 ≤ s) (h2 : s ≤ 12) :
    1 ≤ (getFiscalMonthOrder s).getD 11 0 ∧ (getFiscalMonthOrder s).getD 11 0 ≤ 12 := by
  interval_cases s <;> exact ⟨by decide, by decide⟩

/-- C1: on every run that returns results, the closing balance of each
account's bucket for the last fiscal month equals the configured starting
balance of that account plus the sum of that account's reported net changes
over all twelve monthly buckets, within the 0.01 tolerance (the equality is
exact in rational arithmetic). -/
theorem claim_C1_conservation (inputs : SimulationInputs)
    (revenuePatterns expensePatterns : List Pattern) (company : Company)
    (hc : Bool) (sid : Option String) (res : SimulationResults)
    (hok : (runSimulation inputs revenuePatterns expensePatterns company hc sid).1 =
      Except.ok res) :
    ∀ b ∈ res.monthlyBalances,
      b.month = (getFiscalMonthOrder inputs.fiscalStartMonth).getD 11 0 →
      |b.closingBalance - (inputs.startingBalances b.account +
        ((res.monthlyBalances.filter (fun b2 => b2.account = b.account)).map
          (fun b2 => b2.summary.netChange)).sum)| ≤ 1 / 100 := by
  obtain ⟨rfl, hval⟩ := runSimulation_ok_inv inputs revenuePatterns expensePatterns
    company hc sid res hok
  obtain ⟨hs1, hs2, _, _, _, _⟩ := validation_bounds inputs revenuePatterns
    expensePatterns company hval
  intro b hb hbm
  obtain ⟨a, i, hi, rfl⟩ := mem_simResults_monthlyBalances inputs revenuePatterns
    expensePatterns company hb
  set F := simFinalBalanceMap inputs revenuePatterns expensePatterns company with hF
  have hfacc : ∀ a2 i2, (F a2 i2).account = a2 :=
    fun a2 i2 => (bmF_fields inputs revenuePatterns expensePatterns company a2 i2).2.1
  have hmon : (F a i).month = i + 1 :=
    (bmF_fields inputs revenuePatterns expensePatterns company a i).2.2
  obtain ⟨hl1, _⟩ := fiscalOrder_last_bounds inputs.fiscalStartMonth hs1 hs2
  have hieq : i = (getFiscalMonthOrder inputs.fiscalStartMonth).getD 11 0 - 1 := by
    rw [hmon] at hbm
    omega
  -- the filtered sum over the results equals the sum over the account's buckets
  have hPf : (((simResults inputs revenuePatterns expensePatterns
      company).monthlyBalances).filter (fun b2 => b2.account = (F a i).account)).Perm
      (((accountsList.flatMap (fun a2 => (List.range 12).map (fun i2 => F a2 i2))).filter
        (fun b2 => b2.account = (F a i).account))) :=
    (simResults_monthlyBalances_perm inputs revenuePatterns expensePatterns
      company).filter _
  have hsum : ((((simResults inputs revenuePatterns expensePatterns
      company).monthlyBalances).filter (fun b2 => b2.account = (F a i).account)).map
        (fun b2 => b2.summary.netChange)).sum =
      ((List.range 12).map (fun i2 =>
        ((simAppliedBalanceMap inputs revenuePatterns expensePatterns company) a
          i2).summary.netChange)).sum := by
    rw [(hPf.map _).sum_eq]
    rw [flatMap_filter_account F hfacc ((F a i).account)]
    rw [hfacc a i]
    rw [List.map_map]
    apply congrArg
    apply List.map_congr_left
    intro i2 _
    exact congrArg BalanceSummary.netChange
      (bmF_fields inputs revenuePatterns expensePatterns company a i2).1
  rw [hsum, hfacc a i, hieq]
  rw [bmF_conservation inputs revenuePatterns expensePatterns company hs1 hs2 a]
  simp only [sub_self, abs_zero]
  norm_num

/-- C10: in every returned results value, each monthly bucket's summary has
non-negative total debits and credits, and its net change equals total debits
minus total credits. -/
theorem claim_C10_summary (inputs : SimulationInputs)
    (revenuePatterns expensePatterns : List Pattern) (company : Company)
    (hc : Bool) (sid : Option String) (res : SimulationResults)
    (hok : (runSimulation inputs revenuePatterns expensePatterns company hc sid).1 =
      Except.ok res) :
    ∀ b ∈ res.monthlyBalances,
      0 ≤ b.summary.totalDebits ∧ 0 ≤ b.summary.totalCredits ∧
      b.summary.netChange = b.summary.totalDebits - b.summary.totalCredits := by
  obtain ⟨rfl, _⟩ := runSimulation_ok_inv inputs revenuePatterns expensePatterns
    company hc sid res hok
  intro b hb
  obtain ⟨a, i, _, rfl⟩ := mem_simResults_monthlyBalances inputs revenuePatterns
    expensePatterns company hb
  exact bmF_summaryOK inputs revenuePatterns expensePatterns company a i

/-- Per-month net revenue: a function of the occurrence list and the
calendar month only (`calculateMonthlySummary … .revenue.net`). -/
def revNetOfMonth (occurrences : List Occurrence) (month : Nat) : ℚ :=
  ((monthOccurrencesFor occurrences month).filter
    (fun occ => occ.type = PatternKind.revenue)).foldl
    (fun sum occ => sum + occ.netAmount) 0

/-- Per-month collected VAT (`calculateMonthlySummary … .revenue.vat`). -/
def revVatOfMonth (occurrences : List Occurrence) (month : Nat) : ℚ :=
  ((monthOccurrencesFor occurrences month).filter
    (fun occ => occ.type = PatternKind.revenue)).foldl
    (fun sum occ => sum + occ.vatAmount) 0

/-- Per-month net expenses (`calculateMonthlySummary … .expenses.net`). -/
def expNetOfMonth (occurrences : List Occurrence) (month : Nat) : ℚ :=
  ((monthOccurrencesFor occurrences month).filter
    (fun occ => occ.type = PatternKind.expense)).foldl
    (fun sum occ => sum + occ.netAmount) 0

theorem simMonthlyTotals_map_revenue_net (inputs : SimulationInputs)
    (revenuePatterns expensePatterns : List Pattern) (company : Company) :
    (simMonthlyTotals inputs revenuePatterns expensePatterns company).map
      (fun m => m.revenue.net) =
    (getFiscalMonthOrder inputs.fiscalStartMonth).map
      (revNetOfMonth (expandAllPatterns revenuePatterns expensePatterns company
        inputs.year)) := by
  show ((getFiscalMonthOrder inputs.fiscalStartMonth).map _).map _ = _
  rw [List.map_map]
  exact List.map_congr_left (fun m _ => rfl)

theorem simMonthlyTotals_map_revenue_vat (inputs : SimulationInputs)
    (revenuePatterns expensePatterns : List Pattern) (company : Company) :
    (simMonthlyTotals inputs revenuePatterns expensePatterns company).map
      (fun m => m.revenue.vat) =
    (getFiscalMonthOrder inputs.fiscalStartMonth).map
      (revVatOfMonth (expandAllPatterns revenuePatterns expensePatterns company
        inputs.year)) := by
  show ((getFiscalMonthOrder inputs.fiscalStartMonth).map _).map _ = _
  rw [List.map_map]
  exact List.map_congr_left (fun m _ => rfl)

theorem simMonthlyTotals_map_expenses_net (inputs : SimulationInputs)
    (revenuePatterns expensePatterns : List Pattern) (company : Company) :
    (simMonthlyTotals inputs revenuePatterns expensePatterns company).map
      (fun m => m.expenses.net) =
    (getFiscalMonthOrder inputs.fiscalStartMonth).map
      (expNetOfMonth (expandAllPatterns revenuePatterns expensePatterns company
        inputs.year)) := by
  show ((getFiscalMonthOrder inputs.fiscalStartMonth).map _).map _ = _
  rw [List.map_map]
  exact List.map_congr_left (fun m _ => rfl)

/-- C8: for any valid fiscal start month s, a run differs from the
corresponding calendar-year run (fiscalStartMonth = 1) neither in overall
net profit nor in overall VAT collected: the postings are identical, only
the reporting order of the months changes. -/
theorem claim_C8_fiscal_invariance (inputs : SimulationInputs) (s : Nat)
    (revenuePatterns expensePatterns : List Pattern) (company : Company)
    (hc : Bool) (sid : Option String) (resS res1 : SimulationResults)
    (hokS : (runSimulation { inputs with fiscalStartMonth := s } revenuePatterns
      expensePatterns company hc sid).1 = Except.ok resS)
    (hok1 : (runSimulation { inputs with fiscalStartMonth := 1 } revenuePatterns
      expensePatterns company hc sid).1 = Except.ok res1) :
    resS.overallTotals.netProfit = res1.overallTotals.netProfit ∧
    resS.overallTotals.totalVatCollected = res1.overallTotals.totalVatCollected := by
  obtain ⟨rfl, hvalS⟩ := runSimulation_ok_inv _ revenuePatterns expensePatterns
    company hc sid resS hokS
  obtain ⟨rfl, _⟩ := runSimulation_ok_inv _ revenuePatterns expensePatterns
    company hc sid res1 hok1
  obtain ⟨hs1, hs2, _, _, _, _⟩ := validation_bounds _ revenuePatterns
    expensePatterns company hvalS
  have hperm := fiscalOrder_perm_one s hs1 hs2
  constructor
  · show (simOverallTotals { inputs with fiscalStartMonth := s } revenuePatterns
        expensePatterns company).netProfit =
      (simOverallTotals { inputs with fiscalStartMonth := 1 } revenuePatterns
        expensePatterns company).netProfit
    rw [show simOverallTotals { inputs with fiscalStartMonth := s } revenuePatterns
        expensePatterns company = calculateOverallSummary (simMonthlyTotals
        { inputs with fiscalStartMonth := s } revenuePatterns expensePatterns
        company) from rfl]
    rw [show simOverallTotals { inputs with fiscalStartMonth := 1 } revenuePatterns
        expensePatterns company = calculateOverallSummary (simMonthlyTotals
        { inputs with fiscalStartMonth := 1 } revenuePatterns expensePatterns
        company) from rfl]
    rw [(calculateOverallSummary_fields _).2.2.1, (calculateOverallSummary_fields _).2.2.1]
    rw [simMonthlyTotals_map_revenue_net, simMonthlyTotals_map_revenue_net,
      simMonthlyTotals_map_expenses_net, simMonthlyTotals_map_expenses_net]
    rw [(hperm.map _).sum_eq, (hperm.map _).sum_eq]
  · show (simOverallTotals { inputs with fiscalStartMonth := s } revenuePatterns
        expensePatterns company).totalVatCollected =
      (simOverallTotals { inputs with fiscalStartMonth := 1 } revenuePatterns
        expensePatterns company).totalVatCollected
    rw [show simOverallTotals { inputs with fiscalStartMonth := s } revenuePatterns
        expensePatterns company = calculateOverallSummary (simMonthlyTotals
        { inputs with fiscalStartMonth := s } revenuePatterns expensePatterns
        company) from rfl]
    rw [show simOverallTotals { inputs with fiscalStartMonth := 1 } revenuePatterns
        expensePatterns company = calculateOverallSummary (simMonthlyTotals
        { inputs with fiscalStartMonth := 1 } revenuePatterns expensePatterns
        company) from rfl]
    rw [(calculateOverallSummary_fields _).1, (calculateOverallSummary_fields _).1]
    rw [simMonthlyTotals_map_revenue_vat, simMonthlyTotals_map_revenue_vat]
    rw [(hperm.map _).sum_eq]

theorem flatMap_singleton_eq_map {α β : Type} (f : α → β) (l : List α) :
    l.flatMap (fun x => [f x]) = l.map f := by
  induction l with
  | nil => rfl
  | cons x t ih => rw [List.flatMap_cons, List.map_cons, ih]; rfl

theorem getFiscalMonthOrder_length (s : Nat) :
    (getFiscalMonthOrder s).length = 12 := by
  unfold getFiscalMonthOrder
  rw [List.length_map, List.length_range]

/-- The progress values of the snapshots a successful run passes to the
callback, in emission order: 10 and 20 on entry, 25–80 across the twelve
fiscal months, then 85, 90, 95 and the final 100. -/
theorem runSimulation_trace_progress (inputs : SimulationInputs)
    (revenuePatterns expensePatterns : List Pattern) (company : Company)
    (sid : String)
    (hval : validateSimulationInputs inputs revenuePatterns expensePatterns ++
      validateCompanyForSimulation company = []) :
    ((runSimulation inputs revenuePatterns expensePatterns company true
      (some sid)).2).map (fun u => u.progress) =
    [10, 20] ++ (List.range 12).map (fun i => 20 + ((i + 1 : ℚ) / 12) * 60) ++
      [85, 90, 95, 100] := by
  rw [runSimulation_ok inputs revenuePatterns expensePatterns company true
    (some sid) hval]
  show (simPreTrace inputs revenuePatterns expensePatterns company true (some sid) ++
    emitProgress true (some sid) 12 100 none none).map (fun u => u.progress) = _
  unfold simPreTrace
  simp only [List.map_append]
  rw [show (simApplyFold inputs revenuePatterns expensePatterns company true
      (some sid)).2 = ((getFiscalMonthOrder inputs.fiscalStartMonth).enum.foldl
      (monthStep (expandAllPatterns revenuePatterns expensePatterns company
        inputs.year) true (some sid))
      (createInitialBalances inputs.startingBalances inputs.fiscalStartMonth, [])).2
    from rfl]
  rw [monthStep_snd]
  rw [show ((getFiscalMonthOrder inputs.fiscalStartMonth).enum.flatMap (fun im =>
      (emitProgress true (some sid) im.2 (20 + ((im.1 + 1 : ℚ) / 12) * 60) none
        none).map (fun u => u.progress))) =
    ((getFiscalMonthOrder inputs.fiscalStartMonth).enum.flatMap (fun im =>
      [20 + ((im.1 + 1 : ℚ) / 12) * 60])) from rfl]
  rw [flatMap_singleton_eq_map]
  rw [show ((getFiscalMonthOrder inputs.fiscalStartMonth).enum.map (fun im =>
      20 + ((im.1 + 1 : ℚ) / 12) * 60)) =
    (((getFiscalMonthOrder inputs.fiscalStartMonth).enum.map Prod.fst).map
      (fun i : Nat => 20 + ((i + 1 : ℚ) / 12) * 60)) from by rw [List.map_map]; rfl]
  rw [List.enum_map_fst, getFiscalMonthOrder_length]
  rfl

/-- C9: within one run that was given a progress callback and a simulation
id, the progress values passed to the callback are non-decreasing, and on
successful completion the final value passed is 100. -/
theorem claim_C9_progress (inputs : SimulationInputs)
    (revenuePatterns expensePatterns : List Pattern) (company : Company)
    (sid : String) (res : SimulationResults)
    (hok : (runSimulation inputs revenuePatterns expensePatterns company true
      (some sid)).1 = Except.ok res) :
    List.Chain' (fun p q => p ≤ q)
      (((runSimulation inputs revenuePatterns expensePatterns company true
        (some sid)).2).map (fun u => u.progress)) ∧
    (((runSimulation inputs revenuePatterns expensePatterns company true
      (some sid)).2).map (fun u => u.progress)).getLast? = some 100 := by
  obtain ⟨_, hval⟩ := runSimulation_ok_inv inputs revenuePatterns expensePatterns
    company true (some sid) res hok
  rw [runSimulation_trace_progress inputs revenuePatterns expensePatterns company
    sid hval]
  have hexp : (List.range 12).map (fun i => 20 + ((i + 1 : ℚ) / 12) * 60) =
      [25, 30, 35, 40, 45, 50, 55, 60, 65, 70, 75, 80] := by
    rw [show List.range 12 = [0, 1, 2, 3, 4, 5, 6, 7, 8, 9, 10, 11] from rfl]
    norm_num
  rw [hexp]
  constructor
  · norm_num [List.chain'_cons, List.chain'_singleton]
  · rfl

theorem createOccurrence_amounts (p : Pattern) (c : Company) (d : Date) (r : ℚ)
    (hk : p.kind = PatternKind.revenue) (hr : p.vatRate = some r) :
    (createOccurrence p c d).vatAmount = p.amount * (r / 100) / (1 + r / 100) ∧
    (createOccurrence p c d).netAmount =
      p.amount - p.amount * (r / 100) / (1 + r / 100) := by
  constructor <;> simp [createOccurrence, calculateVAT, hk, hr]

/-- The pure-revenue scenario of the integration tests: calendar fiscal year
2024, starting balances operating 1000 / savings 5000 / personal 0 / vat 0. -/
def c2Inputs : SimulationInputs :=
  { year := 2024, fiscalStartMonth := 1
    startingBalances := fun a =>
      match a with
      | Account.operating => 1000
      | Account.savings => 5000
      | Account.personal => 0
      | Account.vat => 0 }

/-- Quarterly revenue pattern, gross 15000 at 20% VAT starting month 3. -/
def c2Quarterly : Pattern :=
  { id := "rev-002", name := "Quarterly Consulting Revenue", amount := 15000,
    frequency := "quarterly", startMonth := 3, kind := PatternKind.revenue,
    vatRate := some 20, category := none, vatDeductible := none,
    daysMask := none, excludeWeekends := false, excludeHolidays := false,
    startDate := none, dayOffOverrides := [], isRecurring := true }

/-- The two revenue patterns of the pure-revenue scenario (the monthly
pattern `c5Pattern` is gross 12000 at 20% VAT starting month 1). -/
def c2Rev : List Pattern := [c5Pattern, c2Quarterly]

/-- Net amount of one monthly occurrence of the scenario. -/
def nM (m : Nat) : ℚ := (createOccurrence c5Pattern testCompany ⟨2024, m, 1⟩).netAmount

/-- Net amount of one quarterly occurrence of the scenario. -/
def nQ (m : Nat) : ℚ := (createOccurrence c2Quarterly testCompany ⟨2024, m, 1⟩).netAmount

/-- VAT amount of one monthly occurrence of the scenario. -/
def vM (m : Nat) : ℚ := (createOccurrence c5Pattern testCompany ⟨2024, m, 1⟩).vatAmount

/-- VAT amount of one quarterly occurrence of the scenario. -/
def vQ (m : Nat) : ℚ := (createOccurrence c2Quarterly testCompany ⟨2024, m, 1⟩).vatAmount

theorem nM_val (m : Nat) : nM m = 10000 := by
  unfold nM
  rw [(createOccurrence_amounts c5Pattern testCompany ⟨2024, m, 1⟩ 20 rfl rfl).2]
  norm_num [c5Pattern]

theorem nQ_val (m : Nat) : nQ m = 12500 := by
  unfold nQ
  rw [(createOccurrence_amounts c2Quarterly testCompany ⟨2024, m, 1⟩ 20 rfl rfl).2]
  norm_num [c2Quarterly]

theorem vM_val (m : Nat) : vM m = 2000 := by
  unfold vM
  rw [(createOccurrence_amounts c5Pattern testCompany ⟨2024, m, 1⟩ 20 rfl rfl).1]
  norm_num [c5Pattern]

theorem vQ_val (m : Nat) : vQ m = 2500 := by
  unfold vQ
  rw [(createOccurrence_amounts c2Quarterly testCompany ⟨2024, m, 1⟩ 20 rfl rfl).1]
  norm_num [c2Quarterly]

/-- C2, intended semantics: the pure-revenue scenario (monthly gross 12000 at
20% VAT from month 1; quarterly gross 15000 at 20% VAT starting month 3;
calendar fiscal year; operating starts at 1000) returns results with overall
net revenue 170000, final operating balance 171000, and positive VAT
collected.  NOTE - the shipped engine.ts cannot actually reach this state: at
lines 776/779 it reads `o.postings`, a field that does not exist on
`Occurrence` (the field is `accountPostings`), so under JS semantics the
month-tax computation throws a TypeError as soon as a month contains an
occurrence and every such run fails; this theorem evaluates the evident
intended behaviour (the one the repository's own integration test expects),
with the intended field. -/
theorem claim_C2_intended_behavior :
    (runSimulation c2Inputs c2Rev [] testCompany false none).1 =
      Except.ok (simResults c2Inputs c2Rev [] testCompany) ∧
    (simResults c2Inputs c2Rev [] testCompany).overallTotals.totalRevenue.net =
      170000 ∧
    (simResults c2Inputs c2Rev [] testCompany).overallTotals.finalAccountBalances
      Account.operating = 171000 ∧
    0 < (simResults c2Inputs c2Rev [] testCompany).overallTotals.totalVatCollected := by
  have hval : validateSimulationInputs c2Inputs c2Rev [] ++
      validateCompanyForSimulation testCompany = [] := by decide
  refine ⟨by rw [runSimulation_ok c2Inputs c2Rev [] testCompany false none hval], ?_, ?_, ?_⟩
  · have hrev : (simResults c2Inputs c2Rev [] testCompany).overallTotals.totalRevenue.net =
        0 + (0 + nM 1 + nQ 1) + (0 + nM 2) + (0 + nM 3) + (0 + nM 4 + nQ 4) +
        (0 + nM 5) + (0 + nM 6) + (0 + nM 7 + nQ 7) + (0 + nM 8) + (0 + nM 9) +
        (0 + nM 10 + nQ 10) + (0 + nM 11) + (0 + nM 12) := rfl
    rw [hrev]
    simp only [nM_val, nQ_val]
    norm_num
  · have hfin : (simResults c2Inputs c2Rev [] testCompany).overallTotals.finalAccountBalances
        Account.operating =
        ((simFinalBalanceMap c2Inputs c2Rev [] testCompany) Account.operating
          11).closingBalance := rfl
    rw [hfin]
    have hcons := bmF_conservation c2Inputs c2Rev [] testCompany (by decide) (by decide)
      Account.operating
    rw [show (getFiscalMonthOrder c2Inputs.fiscalStartMonth).getD 11 0 - 1 = 11 from
      by decide] at hcons
    rw [hcons]
    have hb : ∀ q : Nat → ℚ,
        ((List.range 12).map q).sum =
          q 0 + (q 1 + (q 2 + (q 3 + (q 4 + (q 5 + (q 6 + (q 7 + (q 8 + (q 9 +
            (q 10 + (q 11 + 0))))))))))) := fun q => rfl
    rw [hb]
    have e0 : (simAppliedBalanceMap c2Inputs c2Rev [] testCompany Account.operating
        0).summary.netChange = 0 + nM 1 + nQ 1 := rfl
    have e1 : (simAppliedBalanceMap c2Inputs c2Rev [] testCompany Account.operating
        1).summary.netChange = 0 + nM 2 := rfl
    have e2 : (simAppliedBalanceMap c2Inputs c2Rev [] testCompany Account.operating
        2).summary.netChange = 0 + nM 3 := rfl
    have e3 : (simAppliedBalanceMap c2Inputs c2Rev [] testCompany Account.operating
        3).summary.netChange = 0 + nM 4 + nQ 4 := rfl
    have e4 : (simAppliedBalanceMap c2Inputs c2Rev [] testCompany Account.operating
        4).summary.netChange = 0 + nM 5 := rfl
    have e5 : (simAppliedBalanceMap c2Inputs c2Rev [] testCompany Account.operating
        5).summary.netChange = 0 + nM 6 := rfl
    have e6 : (simAppliedBalanceMap c2Inputs c2Rev [] testCompany Account.operating
        6).summary.netChange = 0 + nM 7 + nQ 7 := rfl
    have e7 : (simAppliedBalanceMap c2Inputs c2Rev [] testCompany Account.operating
        7).summary.netChange = 0 + nM 8 := rfl
    have e8 : (simAppliedBalanceMap c2Inputs c2Rev [] testCompany Account.operating
        8).summary.netChange = 0 + nM 9 := rfl
    have e9 : (simAppliedBalanceMap c2Inputs c2Rev [] testCompany Account.operating
        9).summary.netChange = 0 + nM 10 + nQ 10 := rfl
    have e10 : (simAppliedBalanceMap c2Inputs c2Rev [] testCompany Account.operating
        10).summary.netChange = 0 + nM 11 := rfl
    have e11 : (simAppliedBalanceMap c2Inputs c2Rev [] testCompany Account.operating
        11).summary.netChange = 0 + nM 12 := rfl
    rw [e0, e1, e2, e3, e4, e5, e6, e7, e8, e9, e10, e11]
    simp only [nM_val, nQ_val]
    rw [show c2Inputs.startingBalances Account.operating = 1000 from rfl]
    norm_num
  · have hvat : (simResults c2Inputs c2Rev [] testCompany).overallTotals.totalVatCollected =
        0 + (0 + vM 1 + vQ 1) + (0 + vM 2) + (0 + vM 3) + (0 + vM 4 + vQ 4) +
        (0 + vM 5) + (0 + vM 6) + (0 + vM 7 + vQ 7) + (0 + vM 8) + (0 + vM 9) +
        (0 + vM 10 + vQ 10) + (0 + vM 11) + (0 + vM 12) := rfl
    rw [hvat]
    simp only [vM_val, vQ_val]
    norm_num

theorem claim_C1_witness :
    (simFinalBalanceMap c2Inputs [] [] testCompany Account.operating 11) ∈
      (simResults c2Inputs [] [] testCompany).monthlyBalances ∧
    |(simFinalBalanceMap c2Inputs [] [] testCompany Account.operating 11).closingBalance -
      (c2Inputs.startingBalances
        (simFinalBalanceMap c2Inputs [] [] testCompany Account.operating 11).account +
       ((((simResults c2Inputs [] [] testCompany).monthlyBalances).filter
          (fun b2 => b2.account =
            (simFinalBalanceMap c2Inputs [] [] testCompany
              Account.operating 11).account)).map
          (fun b2 => b2.summary.netChange)).sum)| ≤ 1 / 100 := by
  have hok : (runSimulation c2Inputs [] [] testCompany false none).1 =
      Except.ok (simResults c2Inputs [] [] testCompany) := by
    rw [runSimulation_ok c2Inputs [] [] testCompany false none (by decide)]
  have hmem : (simFinalBalanceMap c2Inputs [] [] testCompany Account.operating 11) ∈
      (simResults c2Inputs [] [] testCompany).monthlyBalances :=
    (simResults_monthlyBalances_perm c2Inputs [] [] testCompany).mem_iff.mpr
      (List.mem_flatMap.mpr ⟨Account.operating, List.Mem.head _,
        List.mem_map.mpr ⟨11, by decide, rfl⟩⟩)
  exact ⟨hmem, claim_C1_conservation c2Inputs [] [] testCompany false none
    (simResults c2Inputs [] [] testCompany) hok _ hmem
    (((bmF_fields c2Inputs [] [] testCompany Account.operating 11).2.2).trans
      (by decide))⟩

theorem claim_C10_witness :
    (simFinalBalanceMap c2Inputs [] [] testCompany Account.savings 0) ∈
      (simResults c2Inputs [] [] testCompany).monthlyBalances ∧
    (0 ≤ (simFinalBalanceMap c2Inputs [] [] testCompany
        Account.savings 0).summary.totalDebits ∧
     0 ≤ (simFinalBalanceMap c2Inputs [] [] testCompany
        Account.savings 0).summary.totalCredits ∧
     (simFinalBalanceMap c2Inputs [] [] testCompany
        Account.savings 0).summary.netChange =
       (simFinalBalanceMap c2Inputs [] [] testCompany
          Account.savings 0).summary.totalDebits -
       (simFinalBalanceMap c2Inputs [] [] testCompany
          Account.savings 0).summary.totalCredits) := by
  have hok : (runSimulation c2Inputs [] [] testCompany false none).1 =
      Except.ok (simResults c2Inputs [] [] testCompany) := by
    rw [runSimulation_ok c2Inputs [] [] testCompany false none (by decide)]
  have hmem : (simFinalBalanceMap c2Inputs [] [] testCompany Account.savings 0) ∈
      (simResults c2Inputs [] [] testCompany).monthlyBalances :=
    (simResults_monthlyBalances_perm c2Inputs [] [] testCompany).mem_iff.mpr
      (List.mem_flatMap.mpr ⟨Account.savings, List.Mem.tail _ (List.Mem.head _),
        List.mem_map.mpr ⟨0, by decide, rfl⟩⟩)
  exact ⟨hmem, claim_C10_summary c2Inputs [] [] testCompany false none
    (simResults c2Inputs [] [] testCompany) hok _ hmem⟩

theorem claim_C8_witness :
    (simResults { c2Inputs with fiscalStartMonth := 4 } [] []
        testCompany).overallTotals.netProfit =
      (simResults { c2Inputs with fiscalStartMonth := 1 } [] []
        testCompany).overallTotals.netProfit ∧
    (simResults { c2Inputs with fiscalStartMonth := 4 } [] []
        testCompany).overallTotals.totalVatCollected =
      (simResults { c2Inputs with fiscalStartMonth := 1 } [] []
        testCompany).overallTotals.totalVatCollected :=
  claim_C8_fiscal_invariance c2Inputs 4 [] [] testCompany false none
    (simResults { c2Inputs with fiscalStartMonth := 4 } [] [] testCompany)
    (simResults { c2Inputs with fiscalStartMonth := 1 } [] [] testCompany)
    (by rw [runSimulation_ok { c2Inputs with fiscalStartMonth := 4 } [] []
      testCompany false none (by decide)])
    (by rw [runSimulation_ok { c2Inputs with fiscalStartMonth := 1 } [] []
      testCompany false none (by decide)])

theorem claim_C9_witness :
    List.Chain' (fun p q => p ≤ q)
      (((runSimulation c2Inputs [] [] testCompany true
        (some "sim-001")).2).map (fun u => u.progress)) ∧
    (((runSimulation c2Inputs [] [] testCompany true
      (some "sim-001")).2).map (fun u => u.progress)).getLast? = some 100 :=
  claim_C9_progress c2Inputs [] [] testCompany "sim-001"
    (simResults c2Inputs [] [] testCompany)
    (by rw [runSimulation_ok c2Inputs [] [] testCompany true
      (some "sim-001") (by decide)])

end Fisquality
